import Mathlib

/-
  Verification of the double-entry ledger posting / bank-reconciliation engine
  of ardua-books.

  Shallow embedding notes:
  * Monetary amounts (Django `DecimalField` with 2 decimal places) are modelled
    as integers in cents (`Int`).
  * Database rows are records; each table is a list of records inside
    `LedgerState`.  Django's generic foreign key `source_content_type /
    source_object_id` on `JournalEntry` is a tagged pair `Option (SourceType × Nat)`.
  * `ChartOfAccount` rows are referred to by id; the bank account attached to a
    `BankTransaction` is denormalised into the transaction record as the pair
    (`bankAccountId`, `bankAccountGL`), mirroring `txn.bank_account_id` and
    `txn.bank_account.account_id` in the source.
  * Functions that `raise ValueError` in the source return `Except String _`;
    because every service is wrapped in `transaction.atomic`, an error means no
    state change, which the `Except` embedding captures by not producing a state.
-/

namespace ArduaBooks

abbrev AccountId := Nat
abbrev EntryId := Nat
abbrev TxnId := Nat
abbrev PaymentId := Nat
abbrev ExpenseId := Nat

/-- Kind tag of the polymorphic `source_content_type` on `JournalEntry`. -/
inductive SourceType where
  | invoice
  | payment
  | bankTransaction
  | bankAccount
  | expense
  deriving DecidableEq, Repr

/-- `accounting.models.JournalLine`: one debit or credit row of an entry. -/
structure JournalLine where
  account : AccountId
  debit : Int
  credit : Int
  deriving DecidableEq, Repr

/-- `accounting.models.JournalEntry` with its owned lines.
`postedAt` is the entry's `posted_at` date as an integer ordinal. -/
structure JournalEntry where
  id : EntryId
  postedAt : Int
  source : Option (SourceType × Nat)
  lines : List JournalLine
  deriving DecidableEq, Repr

/-- `accounting.models.BankTransaction`. -/
structure BankTransaction where
  id : TxnId
  bankAccountId : Nat
  bankAccountGL : AccountId
  date : Int
  amount : Int
  journalEntry : Option EntryId
  offsetAccount : Option AccountId
  expense : Option ExpenseId
  payment : Option PaymentId
  transferPair : Option TxnId
  deriving DecidableEq, Repr

/-- `accounting.models.Payment` together with the amounts of its
`PaymentApplication` children. -/
structure Payment where
  id : PaymentId
  date : Int
  amount : Int
  applications : List Int
  deriving DecidableEq, Repr

/-- `billing.models.Expense`, restricted to the fields the banking service
touches: `category.account` and `payment_account`. -/
structure Expense where
  id : ExpenseId
  categoryAccount : Option AccountId
  paymentAccount : Option Nat
  deriving DecidableEq, Repr

/-- The ledger database state. -/
structure LedgerState where
  accounts : List AccountId
  entries : List JournalEntry
  txns : List BankTransaction
  payments : List Payment
  expenses : List Expense
  nextAccountId : Nat
  nextEntryId : EntryId
  nextTxnId : TxnId
  deriving DecidableEq, Repr

-- ----------------------------------------------------------------------
-- Row lookups and updates
-- ----------------------------------------------------------------------

def getTxn (s : LedgerState) (tid : TxnId) : Option BankTransaction :=
  s.txns.find? (fun t => t.id == tid)

def getEntry (s : LedgerState) (jid : EntryId) : Option JournalEntry :=
  s.entries.find? (fun e => e.id == jid)

def getPayment (s : LedgerState) (pid : PaymentId) : Option Payment :=
  s.payments.find? (fun p => p.id == pid)

def getExpense (s : LedgerState) (eid : ExpenseId) : Option Expense :=
  s.expenses.find? (fun ex => ex.id == eid)

/-- Save a mutated `BankTransaction` row (update by primary key). -/
def setTxn (s : LedgerState) (t : BankTransaction) : LedgerState :=
  { s with txns := s.txns.map (fun u => if u.id = t.id then t else u) }

/-- Save a mutated `Payment` row. -/
def setPayment (s : LedgerState) (p : Payment) : LedgerState :=
  { s with payments := s.payments.map (fun q => if q.id = p.id then p else q) }

/-- Save a mutated `Expense` row. -/
def setExpense (s : LedgerState) (ex : Expense) : LedgerState :=
  { s with expenses := s.expenses.map (fun f => if f.id = ex.id then ex else f) }

/-- `JournalEntry.delete()`: deletion cascades to the entry's lines
(the lines live inside the entry record here). -/
def deleteEntry (s : LedgerState) (jid : EntryId) : LedgerState :=
  { s with entries := s.entries.filter (fun e => e.id ≠ jid) }

/-- The journal entries whose generic source reference points at a given row:
`JournalEntry.objects.filter(source_content_type=ct, source_object_id=oid)`. -/
def entriesForSource (s : LedgerState) (st : SourceType) (oid : Nat) : List JournalEntry :=
  s.entries.filter (fun e => e.source = some (st, oid))

-- ----------------------------------------------------------------------
-- Balance predicates
-- ----------------------------------------------------------------------

def entryDebitTotal (e : JournalEntry) : Int := (e.lines.map (fun l => l.debit)).sum

def entryCreditTotal (e : JournalEntry) : Int := (e.lines.map (fun l => l.credit)).sum

/-- The double-entry invariant: an entry's debits and credits sum equal. -/
def EntryBalanced (e : JournalEntry) : Prop := entryDebitTotal e = entryCreditTotal e

-- ----------------------------------------------------------------------
-- accounting/services/posting.py
-- ----------------------------------------------------------------------

/-- `posting._invoice_currently_posted`: parity of the number of journal
entries whose source is this invoice. -/
def invoice_currently_posted (s : LedgerState) (invoiceId : Nat) : Bool :=
  (entriesForSource s .invoice invoiceId).length % 2 == 1

/-- `posting.post_invoice`.  `ar`/`revenue` are the accounts with codes
"1100" and "4000" fetched by `_get_default_accounts`; `total` is
`invoice.total`; `now` is the entry's default `posted_at`. -/
def post_invoice (s : LedgerState) (invoiceId : Nat) (total : Int)
    (ar revenue : AccountId) (now : Int) : LedgerState × Option JournalEntry :=
  if invoice_currently_posted s invoiceId then (s, none)
  else
    let entry : JournalEntry :=
      { id := s.nextEntryId
        postedAt := now
        source := some (.invoice, invoiceId)
        lines :=
          [ { account := ar, debit := total, credit := 0 },
            { account := revenue, debit := 0, credit := total } ] }
    ({ s with entries := s.entries ++ [entry], nextEntryId := s.nextEntryId + 1 },
     some entry)

/-- `posting.reverse_invoice`. -/
def reverse_invoice (s : LedgerState) (invoiceId : Nat) (total : Int)
    (ar revenue : AccountId) (now : Int) : LedgerState × Option JournalEntry :=
  if !invoice_currently_posted s invoiceId then (s, none)
  else
    let entry : JournalEntry :=
      { id := s.nextEntryId
        postedAt := now
        source := some (.invoice, invoiceId)
        lines :=
          [ { account := revenue, debit := total, credit := 0 },
            { account := ar, debit := 0, credit := total } ] }
    ({ s with entries := s.entries ++ [entry], nextEntryId := s.nextEntryId + 1 },
     some entry)

-- ----------------------------------------------------------------------
-- accounting/models.py : Payment.post_to_accounting
-- ----------------------------------------------------------------------

/-- `sum(app.amount for app in self.applications.all())`. -/
def appliedTotal (p : Payment) : Int := p.applications.sum

/-- The lines built by `Payment.post_to_accounting`:
debit Cash for the full amount, credit AR for the applied total when
positive, credit the clearing liability for the unapplied remainder when
positive. -/
def payment_post_lines (amount applied : Int) (cash ar clearing : AccountId) :
    List JournalLine :=
  let unapplied := amount - applied
  [ ({ account := cash, debit := amount, credit := 0 } : JournalLine) ]
  ++ (if 0 < applied then
        [ ({ account := ar, debit := 0, credit := applied } : JournalLine) ]
      else [])
  ++ (if 0 < unapplied then
        [ ({ account := clearing, debit := 0, credit := unapplied } : JournalLine) ]
      else [])

/-- `Payment.post_to_accounting`.  `cash`/`ar`/`clearing` are the accounts
with codes "1000", "1200", "2200".  Returns the existing entry unchanged if
one with this payment as source is already present. -/
def post_to_accounting (s : LedgerState) (p : Payment)
    (cash ar clearing : AccountId) : LedgerState × JournalEntry :=
  match (entriesForSource s .payment p.id).head? with
  | some existing => (s, existing)
  | none =>
    let je : JournalEntry :=
      { id := s.nextEntryId
        postedAt := p.date
        source := some (.payment, p.id)
        lines := payment_post_lines p.amount (appliedTotal p) cash ar clearing }
    ({ s with entries := s.entries ++ [je], nextEntryId := s.nextEntryId + 1 }, je)

-- ----------------------------------------------------------------------
-- accounting/services/banking.py : BankAccountService
-- ----------------------------------------------------------------------

/-- The lines of `BankAccountService._create_opening_balance_je`:
asset with positive opening balance debits the bank and credits owner
equity; asset with non-positive balance debits equity and credits the bank
for the absolute value; a liability (credit card) debits equity and credits
the bank for the raw balance. -/
def opening_balance_lines (isAsset : Bool) (bankGL equity : AccountId)
    (ob : Int) : List JournalLine :=
  if isAsset then
    if 0 < ob then
      [ { account := bankGL, debit := ob, credit := 0 },
        { account := equity, debit := 0, credit := ob } ]
    else
      [ { account := equity, debit := |ob|, credit := 0 },
        { account := bankGL, debit := 0, credit := |ob| } ]
  else
    [ { account := equity, debit := ob, credit := 0 },
      { account := bankGL, debit := 0, credit := ob } ]

/-- `BankAccountService.create_bank_account`, restricted to its ledger
effect: allocate a fresh chart-of-accounts row (liability for credit cards,
asset otherwise) and, when the opening balance is nonzero, post the opening
balance entry built by `_create_opening_balance_je`.  The source assigns
`je.content_type` / `je.object_id`, which are not model fields, so the
created entry carries no source reference.  The string COA code allocation
of `_next_coa_code` is not needed by any claim and is modelled by a fresh
numeric id.  Returns the state together with the new GL account id. -/
def create_bank_account (s : LedgerState) (isCreditCard : Bool) (ob : Int)
    (equity : AccountId) (now : Int) : LedgerState × AccountId :=
  let coa := s.nextAccountId
  let s1 := { s with accounts := s.accounts ++ [coa], nextAccountId := s.nextAccountId + 1 }
  if ob ≠ 0 then
    let je : JournalEntry :=
      { id := s1.nextEntryId
        postedAt := now
        source := none
        lines := opening_balance_lines (!isCreditCard) coa equity ob }
    ({ s1 with entries := s1.entries ++ [je], nextEntryId := s1.nextEntryId + 1 }, coa)
  else (s1, coa)

-- ----------------------------------------------------------------------
-- accounting/services/banking.py : BankTransactionService
-- ----------------------------------------------------------------------

/-- The debit/credit-by-sign rule of `post_transaction`: a positive amount
debits the bank account's GL account and credits the offset account; a
non-positive amount debits the offset account and credits the bank for the
absolute value. -/
def post_transaction_lines (bankGL offset : AccountId) (amt : Int) :
    List JournalLine :=
  if 0 < amt then
    [ { account := bankGL, debit := amt, credit := 0 },
      { account := offset, debit := 0, credit := amt } ]
  else
    [ { account := offset, debit := |amt|, credit := 0 },
      { account := bankGL, debit := 0, credit := |amt| } ]

/-- `BankTransactionService.post_transaction`: create the transaction row
and its balanced journal entry, and link the entry back onto the row. -/
def post_transaction (s : LedgerState) (baId : Nat) (baGL : AccountId)
    (date : Int) (amount : Int) (offset : AccountId) :
    LedgerState × BankTransaction :=
  let txnId := s.nextTxnId
  let je : JournalEntry :=
    { id := s.nextEntryId
      postedAt := date
      source := some (.bankTransaction, txnId)
      lines := post_transaction_lines baGL offset amount }
  let txn : BankTransaction :=
    { id := txnId
      bankAccountId := baId
      bankAccountGL := baGL
      date := date
      amount := amount
      journalEntry := some je.id
      offsetAccount := some offset
      expense := none
      payment := none
      transferPair := none }
  ({ s with
      entries := s.entries ++ [je]
      txns := s.txns ++ [txn]
      nextEntryId := s.nextEntryId + 1
      nextTxnId := s.nextTxnId + 1 }, txn)

/-- The lines rebuilt by `retag_transaction`, written out exactly as in the
source (it duplicates the sign rule of `post_transaction`). -/
def retag_lines (bankGL newOffset : AccountId) (amt : Int) : List JournalLine :=
  if 0 < amt then
    [ { account := bankGL, debit := amt, credit := 0 },
      { account := newOffset, debit := 0, credit := amt } ]
  else
    [ { account := newOffset, debit := |amt|, credit := 0 },
      { account := bankGL, debit := 0, credit := |amt| } ]

/-- Success path of `retag_transaction`: delete the lines of the
transaction's journal entry, rebuild them against the new offset account,
and update `txn.offset_account`. -/
def retag_transaction_core (s : LedgerState) (txn : BankTransaction)
    (jid : EntryId) (newOffset : AccountId) : LedgerState :=
  let newLines := retag_lines txn.bankAccountGL newOffset txn.amount
  let s1 :=
    { s with
        entries := s.entries.map (fun e => if e.id = jid then { e with lines := newLines } else e) }
  setTxn s1 { txn with offsetAccount := some newOffset }

/-- `BankTransactionService.retag_transaction`.  The source dereferences
`txn.journal_entry.lines`, so a transaction without a journal entry (or a
missing row) has no defined result and is modelled as `none`. -/
def retag_transaction (s : LedgerState) (tid : TxnId) (newOffset : AccountId) :
    Option LedgerState :=
  match getTxn s tid with
  | none => none
  | some txn =>
    match txn.journalEntry with
    | none => none
    | some jid => some (retag_transaction_core s txn jid newOffset)

/-- `BankTransaction.is_matched`: any of payment / expense / transfer set. -/
def is_matched (t : BankTransaction) : Bool :=
  t.payment.isSome || t.expense.isSome || t.transferPair.isSome

/-- `if txn.journal_entry: txn.journal_entry.delete()` — delete the
transaction's journal entry when it has one. -/
def deleteEntryOpt (s : LedgerState) (o : Option EntryId) : LedgerState :=
  match o with
  | some jid => deleteEntry s jid
  | none => s

/-- Success path of `link_expense`: delete the transaction's pre-existing
journal entry, point the expense's payment account at the bank account,
create the expense entry (debit category account / credit bank for the
absolute amount) and link everything onto the transaction. -/
def link_expense_core (s : LedgerState) (txn : BankTransaction) (ex : Expense)
    (expenseAccount : AccountId) : LedgerState :=
  let s1 := deleteEntryOpt s txn.journalEntry
  let s2 := setExpense s1 { ex with paymentAccount := some txn.bankAccountId }
  let amt := |txn.amount|
  let je : JournalEntry :=
    { id := s2.nextEntryId
      postedAt := txn.date
      source := some (.expense, ex.id)
      lines :=
        [ { account := expenseAccount, debit := amt, credit := 0 },
          { account := txn.bankAccountGL, debit := 0, credit := amt } ] }
  let s3 := { s2 with entries := s2.entries ++ [je], nextEntryId := s2.nextEntryId + 1 }
  setTxn s3
    { txn with
        expense := some ex.id
        offsetAccount := some expenseAccount
        journalEntry := some je.id }

/-- `BankTransactionService.link_expense`.  The validations appear in the
source's order: an existing expense link, then an existing payment link,
then a missing GL account on the expense category. -/
def link_expense (s : LedgerState) (tid : TxnId) (eid : ExpenseId) :
    Except String LedgerState :=
  match getTxn s tid, getExpense s eid with
  | some txn, some ex =>
    if txn.expense.isSome then
      .error "Bank transaction is already linked to an expense."
    else if txn.payment.isSome then
      .error "Bank transaction is already linked to a payment."
    else
      match ex.categoryAccount with
      | none => .error "Expense category has no GL account assigned."
      | some expenseAccount => .ok (link_expense_core s txn ex expenseAccount)
  | _, _ => .error "Bank transaction or expense not found."

/-- Success path of `match_transfer`: delete both pre-existing entries, pick
the transaction with negative amount as the source, post one shared entry
(debit destination bank GL / credit source bank GL), and cross-link the two
transactions. -/
def match_transfer_core (s : LedgerState) (txnFrom txnTo : BankTransaction) :
    LedgerState × JournalEntry :=
  let s1 := deleteEntryOpt s txnFrom.journalEntry
  let s2 := deleteEntryOpt s1 txnTo.journalEntry
  let sourceTxn := if txnFrom.amount < 0 then txnFrom else txnTo
  let destTxn := if txnFrom.amount < 0 then txnTo else txnFrom
  let amt := |sourceTxn.amount|
  let je : JournalEntry :=
    { id := s2.nextEntryId
      postedAt := sourceTxn.date
      source := some (.bankTransaction, sourceTxn.id)
      lines :=
        [ { account := destTxn.bankAccountGL, debit := amt, credit := 0 },
          { account := sourceTxn.bankAccountGL, debit := 0, credit := amt } ] }
  let s3 := { s2 with entries := s2.entries ++ [je], nextEntryId := s2.nextEntryId + 1 }
  let s4 := setTxn s3
    { txnFrom with
        journalEntry := some je.id
        transferPair := some txnTo.id
        offsetAccount := some txnTo.bankAccountGL }
  let s5 := setTxn s4
    { txnTo with
        journalEntry := some je.id
        transferPair := some txnFrom.id
        offsetAccount := some txnFrom.bankAccountGL }
  (s5, je)

/-- `BankTransactionService.match_transfer` with the source's validations:
neither transaction matched, different bank accounts, equal absolute
amounts. -/
def match_transfer (s : LedgerState) (fromId toId : TxnId) :
    Except String (LedgerState × JournalEntry) :=
  match getTxn s fromId, getTxn s toId with
  | some txnFrom, some txnTo =>
    if is_matched txnFrom then
      .error "Source transaction is already matched to a payment, expense, or transfer."
    else if is_matched txnTo then
      .error "Destination transaction is already matched to a payment, expense, or transfer."
    else if txnFrom.bankAccountId = txnTo.bankAccountId then
      .error "Cannot match a transfer between the same account."
    else if |txnFrom.amount| ≠ |txnTo.amount| then
      .error "Transaction amounts do not match."
    else .ok (match_transfer_core s txnFrom txnTo)
  | _, _ => .error "Bank transaction not found."

/-- Success path of `link_existing_payment`: overwrite the payment date with
the bank statement date when they differ, post the payment (idempotent), and
link the payment and its entry onto the transaction. -/
def link_existing_payment_core (s : LedgerState) (txn : BankTransaction)
    (p : Payment) (cash ar clearing : AccountId) : LedgerState :=
  let p1 := if p.date ≠ txn.date then { p with date := txn.date } else p
  let s1 := setPayment s p1
  let s2 := (post_to_accounting s1 p1 cash ar clearing).1
  let je := (post_to_accounting s1 p1 cash ar clearing).2
  setTxn s2 { txn with payment := some p.id, journalEntry := some je.id }

/-- `BankTransactionService.link_existing_payment` with the source's
validations: the transaction has no payment yet and the amounts match
exactly. -/
def link_existing_payment (s : LedgerState) (tid : TxnId) (pid : PaymentId)
    (cash ar clearing : AccountId) : Except String LedgerState :=
  match getTxn s tid, getPayment s pid with
  | some txn, some p =>
    if txn.payment.isSome then
      .error "Bank transaction is already linked to a payment."
    else if p.amount ≠ txn.amount then
      .error "Payment and transaction amounts do not match."
    else .ok (link_existing_payment_core s txn p cash ar clearing)
  | _, _ => .error "Bank transaction or payment not found."

-- ----------------------------------------------------------------------
-- accounting/services/importing.py
-- ----------------------------------------------------------------------

/-- `importing.normalize_amount`: convert a CSV amount into the internal
sign convention according to the import profile's sign rule string. -/
def normalize_amount (raw : Int) (rule : String) : Int :=
  if rule = "BANK_STANDARD" then raw
  else if rule = "CC_CHARGES_POSITIVE" then -raw
  else if rule = "CC_CHARGES_NEGATIVE" then raw
  else raw

-- ----------------------------------------------------------------------
-- accounting/views/reports_views.py : TrialBalanceView
-- ----------------------------------------------------------------------

/-- The date filter on `journalline__entry__posted_at__date`. -/
def inDateRange (fromD toD : Option Int) (e : JournalEntry) : Bool :=
  (match fromD with | none => true | some f => decide (f ≤ e.postedAt)) &&
  (match toD with | none => true | some t => decide (e.postedAt ≤ t))

/-- The `Case(When(date_filter & debit > 0, then=debit), default=0)` term
for one joined journal line. -/
def line_case_debit (fromD toD : Option Int) (e : JournalEntry) (l : JournalLine) : Int :=
  if inDateRange fromD toD e ∧ 0 < l.debit then l.debit else 0

def line_case_credit (fromD toD : Option Int) (e : JournalEntry) (l : JournalLine) : Int :=
  if inDateRange fromD toD e ∧ 0 < l.credit then l.credit else 0

/-- `debit_sum` annotated on one account: the sum of the case expression
over all journal lines joined to that account. -/
def debit_sum (s : LedgerState) (fromD toD : Option Int) (a : AccountId) : Int :=
  (s.entries.map (fun e =>
    ((e.lines.filter (fun l => l.account == a)).map (line_case_debit fromD toD e)).sum)).sum

def credit_sum (s : LedgerState) (fromD toD : Option Int) (a : AccountId) : Int :=
  (s.entries.map (fun e =>
    ((e.lines.filter (fun l => l.account == a)).map (line_case_credit fromD toD e)).sum)).sum

/-- `total_debits = sum(a.debit_sum for a in accounts)` over all chart
accounts. -/
def total_debits (s : LedgerState) (fromD toD : Option Int) : Int :=
  (s.accounts.map (debit_sum s fromD toD)).sum

def total_credits (s : LedgerState) (fromD toD : Option Int) : Int :=
  (s.accounts.map (credit_sum s fromD toD)).sum

-- ----------------------------------------------------------------------
-- Engine step relation and reachable ledger states
-- ----------------------------------------------------------------------

/-- Positive part of a line's debit, as selected by the trial balance's
`debit > 0` filter. -/
def lineDebitPos (l : JournalLine) : Int := if 0 < l.debit then l.debit else 0

def lineCreditPos (l : JournalLine) : Int := if 0 < l.credit then l.credit else 0

def entryDebitPos (e : JournalEntry) : Int := (e.lines.map lineDebitPos).sum

def entryCreditPos (e : JournalEntry) : Int := (e.lines.map lineCreditPos).sum

/-- An entry whose positive debits and positive credits also agree; every
entry the engine commits satisfies this strengthening of `EntryBalanced`. -/
def EntryPosBalanced (e : JournalEntry) : Prop := entryDebitPos e = entryCreditPos e

/-- The caller-maintained payment consistency invariant of the data model
(spec §3: `sum(applications.amount) + unappliedAmount == payment.amount`,
with non-negative applications): the applied total lies between 0 and the
payment amount. -/
def PaymentValid (p : Payment) : Prop :=
  0 ≤ appliedTotal p ∧ appliedTotal p ≤ p.amount

/-- One engine operation.  Account parameters stand for chart-of-accounts
rows fetched from the database (`ChartOfAccount.objects.get(...)` or foreign
keys), hence the membership hypotheses.  Payments and expenses enter the
state through the surrounding CRUD layer; their creation steps carry the
data-model invariants that layer maintains (payment consistency, expense
category account being a chart account). -/
inductive Step : LedgerState → LedgerState → Prop where
  | postInvoice (s : LedgerState) (invoiceId : Nat) (total : Int)
      (ar revenue : AccountId) (now : Int)
      (har : ar ∈ s.accounts) (hrev : revenue ∈ s.accounts) :
      Step s (post_invoice s invoiceId total ar revenue now).1
  | reverseInvoice (s : LedgerState) (invoiceId : Nat) (total : Int)
      (ar revenue : AccountId) (now : Int)
      (har : ar ∈ s.accounts) (hrev : revenue ∈ s.accounts) :
      Step s (reverse_invoice s invoiceId total ar revenue now).1
  | createPayment (s : LedgerState) (p : Payment) (hp : PaymentValid p) :
      Step s { s with payments := s.payments ++ [p] }
  | createExpense (s : LedgerState) (ex : Expense)
      (hacct : ∀ a, ex.categoryAccount = some a → a ∈ s.accounts) :
      Step s { s with expenses := s.expenses ++ [ex] }
  | paymentPost (s : LedgerState) (pid : PaymentId) (p : Payment)
      (cash ar clearing : AccountId)
      (hp : getPayment s pid = some p)
      (hcash : cash ∈ s.accounts) (har : ar ∈ s.accounts)
      (hclear : clearing ∈ s.accounts) :
      Step s (post_to_accounting s p cash ar clearing).1
  | createBankAccount (s : LedgerState) (isCreditCard : Bool) (ob : Int)
      (equity : AccountId) (now : Int) (heq : equity ∈ s.accounts) :
      Step s (create_bank_account s isCreditCard ob equity now).1
  | postTransaction (s : LedgerState) (baId : Nat) (baGL : AccountId)
      (date : Int) (amount : Int) (offset : AccountId)
      (hgl : baGL ∈ s.accounts) (hoff : offset ∈ s.accounts) :
      Step s (post_transaction s baId baGL date amount offset).1
  | retag (s : LedgerState) (txn : BankTransaction) (jid : EntryId)
      (newOffset : AccountId) (tid : TxnId)
      (ht : getTxn s tid = some txn) (hje : txn.journalEntry = some jid)
      (hoff : newOffset ∈ s.accounts) :
      Step s (retag_transaction_core s txn jid newOffset)
  | linkExpense (s : LedgerState) (txn : BankTransaction) (ex : Expense)
      (expenseAccount : AccountId) (tid : TxnId) (eid : ExpenseId)
      (ht : getTxn s tid = some txn) (hex : getExpense s eid = some ex)
      (hnoexp : txn.expense = none) (hnopay : txn.payment = none)
      (hcat : ex.categoryAccount = some expenseAccount) :
      Step s (link_expense_core s txn ex expenseAccount)
  | matchTransfer (s : LedgerState) (txnFrom txnTo : BankTransaction)
      (fromId toId : TxnId)
      (hf : getTxn s fromId = some txnFrom) (ht : getTxn s toId = some txnTo)
      (hmf : is_matched txnFrom = false) (hmt : is_matched txnTo = false)
      (hdiff : txnFrom.bankAccountId ≠ txnTo.bankAccountId)
      (hamt : |txnFrom.amount| = |txnTo.amount|) :
      Step s (match_transfer_core s txnFrom txnTo).1
  | linkPayment (s : LedgerState) (txn : BankTransaction) (p : Payment)
      (tid : TxnId) (pid : PaymentId) (cash ar clearing : AccountId)
      (ht : getTxn s tid = some txn) (hp : getPayment s pid = some p)
      (hnopay : txn.payment = none) (hamt : p.amount = txn.amount)
      (hcash : cash ∈ s.accounts) (har : ar ∈ s.accounts)
      (hclear : clearing ∈ s.accounts) :
      Step s (link_existing_payment_core s txn p cash ar clearing)

/-- Ledger states reachable from an empty ledger (seeded with an arbitrary
duplicate-free chart of accounts, as created by the migrations). -/
inductive Reachable : LedgerState → Prop where
  | seed (accounts : List AccountId) (nextAcct : Nat)
      (hnd : accounts.Nodup) (hlt : ∀ a ∈ accounts, a < nextAcct) :
      Reachable
        { accounts := accounts, entries := [], txns := [], payments := [],
          expenses := [], nextAccountId := nextAcct, nextEntryId := 0, nextTxnId := 0 }
  | step (s s' : LedgerState) (hs : Reachable s) (h : Step s s') : Reachable s'

/-- Everything the invariant tracks about one committed entry. -/
def EntryOK (accs : List AccountId) (e : JournalEntry) : Prop :=
  EntryBalanced e ∧ EntryPosBalanced e ∧ ∀ l ∈ e.lines, l.account ∈ accs

/-- The global invariant preserved by every engine operation. -/
structure Inv (s : LedgerState) : Prop where
  nodup : s.accounts.Nodup
  bound : ∀ a ∈ s.accounts, a < s.nextAccountId
  entriesOK : ∀ e ∈ s.entries, EntryOK s.accounts e
  txnsGL : ∀ t ∈ s.txns, t.bankAccountGL ∈ s.accounts
  paymentsValid : ∀ p ∈ s.payments, PaymentValid p
  expensesAcct : ∀ ex ∈ s.expenses, ∀ a, ex.categoryAccount = some a → a ∈ s.accounts

-- ----------------------------------------------------------------------
-- Helper lemmas: entry well-formedness
-- ----------------------------------------------------------------------

lemma entryOK_mono {accs accs' : List AccountId}
    (hsub : ∀ a ∈ accs, a ∈ accs') {e : JournalEntry} (h : EntryOK accs e) :
    EntryOK accs' e :=
  ⟨h.1, h.2.1, fun l hl => hsub _ (h.2.2 l hl)⟩

lemma entriesOK_append {accs : List AccountId} {es : List JournalEntry}
    {je : JournalEntry} (h : ∀ e ∈ es, EntryOK accs e) (hje : EntryOK accs je) :
    ∀ e ∈ es ++ [je], EntryOK accs e := by
  intro e he
  rcases List.mem_append.mp he with he | he
  · exact h e he
  · rcases List.mem_singleton.mp he with rfl
    exact hje

lemma entriesOK_filter {accs : List AccountId} {es : List JournalEntry}
    (h : ∀ e ∈ es, EntryOK accs e) (p : JournalEntry → Bool) :
    ∀ e ∈ es.filter p, EntryOK accs e :=
  fun e he => h e (List.mem_of_mem_filter he)

/-- A two-line entry moving `amt` from a credit on `a2` to a debit on `a1`
is balanced, positively balanced, and draws on chart accounts. -/
lemma entryOK_two {accs : List AccountId} {a1 a2 : AccountId}
    (h1 : a1 ∈ accs) (h2 : a2 ∈ accs) (i : EntryId) (n : Int)
    (src : Option (SourceType × Nat)) (amt : Int) :
    EntryOK accs
      { id := i, postedAt := n, source := src,
        lines := [ { account := a1, debit := amt, credit := 0 },
                   { account := a2, debit := 0, credit := amt } ] } := by
  refine ⟨?_, ?_, ?_⟩
  · simp [EntryBalanced, entryDebitTotal, entryCreditTotal]
  · simp [EntryPosBalanced, entryDebitPos, entryCreditPos, lineDebitPos, lineCreditPos]
  · intro l hl
    rcases List.mem_pair.mp hl with rfl | rfl <;> assumption

lemma entryOK_payment {accs : List AccountId} {cash ar clearing : AccountId}
    (hc : cash ∈ accs) (ha : ar ∈ accs) (hcl : clearing ∈ accs)
    (i : EntryId) (n : Int) (src : Option (SourceType × Nat))
    {amount applied : Int} (h0 : 0 ≤ applied) (h1 : applied ≤ amount) :
    EntryOK accs
      { id := i, postedAt := n, source := src,
        lines := payment_post_lines amount applied cash ar clearing } := by
  refine ⟨?_, ?_, ?_⟩
  · simp only [EntryBalanced, entryDebitTotal, entryCreditTotal, payment_post_lines]
    split_ifs <;> simp <;> omega
  · simp only [EntryPosBalanced, entryDebitPos, entryCreditPos, payment_post_lines]
    split_ifs <;>
      simp [lineDebitPos, lineCreditPos] <;> (try split_ifs) <;> omega
  · intro l hl
    simp only [payment_post_lines] at hl
    rcases List.mem_append.mp hl with hl | hl
    · rcases List.mem_append.mp hl with hl | hl
      · rcases List.mem_singleton.mp hl with rfl; exact hc
      · split_ifs at hl with hif
        · rcases List.mem_singleton.mp hl with rfl; exact ha
        · simp at hl
    · split_ifs at hl with hif
      · rcases List.mem_singleton.mp hl with rfl; exact hcl
      · simp at hl

lemma entryOK_opening {accs : List AccountId} {bankGL equity : AccountId}
    (hb : bankGL ∈ accs) (he : equity ∈ accs) (isAsset : Bool)
    (i : EntryId) (n : Int) (src : Option (SourceType × Nat)) (ob : Int) :
    EntryOK accs
      { id := i, postedAt := n, source := src,
        lines := opening_balance_lines isAsset bankGL equity ob } := by
  unfold opening_balance_lines
  split_ifs
  · exact entryOK_two hb he i n src ob
  · exact entryOK_two he hb i n src |ob|
  · exact entryOK_two he hb i n src ob

lemma entryOK_post_transaction {accs : List AccountId} {bankGL offset : AccountId}
    (hb : bankGL ∈ accs) (ho : offset ∈ accs)
    (i : EntryId) (n : Int) (src : Option (SourceType × Nat)) (amt : Int) :
    EntryOK accs
      { id := i, postedAt := n, source := src,
        lines := post_transaction_lines bankGL offset amt } := by
  unfold post_transaction_lines
  split_ifs
  · exact entryOK_two hb ho i n src amt
  · exact entryOK_two ho hb i n src |amt|

lemma entryOK_retag {accs : List AccountId} {bankGL newOffset : AccountId}
    (hb : bankGL ∈ accs) (ho : newOffset ∈ accs)
    (i : EntryId) (n : Int) (src : Option (SourceType × Nat)) (amt : Int) :
    EntryOK accs
      { id := i, postedAt := n, source := src,
        lines := retag_lines bankGL newOffset amt } := by
  unfold retag_lines
  split_ifs
  · exact entryOK_two hb ho i n src amt
  · exact entryOK_two ho hb i n src |amt|

-- ----------------------------------------------------------------------
-- Helper lemmas: state components of the operations
-- ----------------------------------------------------------------------

lemma getTxn_mem {s : LedgerState} {tid : TxnId} {t : BankTransaction}
    (h : getTxn s tid = some t) : t ∈ s.txns :=
  List.mem_of_find?_eq_some h

lemma getTxn_id {s : LedgerState} {tid : TxnId} {t : BankTransaction}
    (h : getTxn s tid = some t) : t.id = tid := by
  have := List.find?_some h
  simpa using this

lemma getPayment_mem {s : LedgerState} {pid : PaymentId} {p : Payment}
    (h : getPayment s pid = some p) : p ∈ s.payments :=
  List.mem_of_find?_eq_some h

lemma getExpense_mem {s : LedgerState} {eid : ExpenseId} {ex : Expense}
    (h : getExpense s eid = some ex) : ex ∈ s.expenses :=
  List.mem_of_find?_eq_some h

lemma getEntry_mem {s : LedgerState} {jid : EntryId} {e : JournalEntry}
    (h : getEntry s jid = some e) : e ∈ s.entries :=
  List.mem_of_find?_eq_some h

@[simp] lemma setTxn_accounts (s : LedgerState) (t : BankTransaction) :
    (setTxn s t).accounts = s.accounts := rfl

@[simp] lemma setTxn_entries (s : LedgerState) (t : BankTransaction) :
    (setTxn s t).entries = s.entries := rfl

@[simp] lemma setTxn_payments (s : LedgerState) (t : BankTransaction) :
    (setTxn s t).payments = s.payments := rfl

@[simp] lemma setTxn_expenses (s : LedgerState) (t : BankTransaction) :
    (setTxn s t).expenses = s.expenses := rfl

@[simp] lemma setTxn_nextAccountId (s : LedgerState) (t : BankTransaction) :
    (setTxn s t).nextAccountId = s.nextAccountId := rfl

@[simp] lemma setPayment_accounts (s : LedgerState) (p : Payment) :
    (setPayment s p).accounts = s.accounts := rfl

@[simp] lemma setPayment_entries (s : LedgerState) (p : Payment) :
    (setPayment s p).entries = s.entries := rfl

@[simp] lemma setPayment_txns (s : LedgerState) (p : Payment) :
    (setPayment s p).txns = s.txns := rfl

@[simp] lemma setPayment_expenses (s : LedgerState) (p : Payment) :
    (setPayment s p).expenses = s.expenses := rfl

@[simp] lemma setPayment_nextAccountId (s : LedgerState) (p : Payment) :
    (setPayment s p).nextAccountId = s.nextAccountId := rfl

@[simp] lemma setPayment_nextEntryId (s : LedgerState) (p : Payment) :
    (setPayment s p).nextEntryId = s.nextEntryId := rfl

@[simp] lemma setExpense_accounts (s : LedgerState) (ex : Expense) :
    (setExpense s ex).accounts = s.accounts := rfl

@[simp] lemma setExpense_entries (s : LedgerState) (ex : Expense) :
    (setExpense s ex).entries = s.entries := rfl

@[simp] lemma setExpense_txns (s : LedgerState) (ex : Expense) :
    (setExpense s ex).txns = s.txns := rfl

@[simp] lemma setExpense_payments (s : LedgerState) (ex : Expense) :
    (setExpense s ex).payments = s.payments := rfl

@[simp] lemma setExpense_nextAccountId (s : LedgerState) (ex : Expense) :
    (setExpense s ex).nextAccountId = s.nextAccountId := rfl

@[simp] lemma setExpense_nextEntryId (s : LedgerState) (ex : Expense) :
    (setExpense s ex).nextEntryId = s.nextEntryId := rfl

@[simp] lemma deleteEntry_accounts (s : LedgerState) (jid : EntryId) :
    (deleteEntry s jid).accounts = s.accounts := rfl

@[simp] lemma deleteEntry_txns (s : LedgerState) (jid : EntryId) :
    (deleteEntry s jid).txns = s.txns := rfl

@[simp] lemma deleteEntry_payments (s : LedgerState) (jid : EntryId) :
    (deleteEntry s jid).payments = s.payments := rfl

@[simp] lemma deleteEntry_expenses (s : LedgerState) (jid : EntryId) :
    (deleteEntry s jid).expenses = s.expenses := rfl

@[simp] lemma deleteEntry_nextAccountId (s : LedgerState) (jid : EntryId) :
    (deleteEntry s jid).nextAccountId = s.nextAccountId := rfl

@[simp] lemma deleteEntry_nextEntryId (s : LedgerState) (jid : EntryId) :
    (deleteEntry s jid).nextEntryId = s.nextEntryId := rfl

@[simp] lemma deleteEntryOpt_accounts (s : LedgerState) (o : Option EntryId) :
    (deleteEntryOpt s o).accounts = s.accounts := by cases o <;> rfl

@[simp] lemma deleteEntryOpt_txns (s : LedgerState) (o : Option EntryId) :
    (deleteEntryOpt s o).txns = s.txns := by cases o <;> rfl

@[simp] lemma deleteEntryOpt_payments (s : LedgerState) (o : Option EntryId) :
    (deleteEntryOpt s o).payments = s.payments := by cases o <;> rfl

@[simp] lemma deleteEntryOpt_expenses (s : LedgerState) (o : Option EntryId) :
    (deleteEntryOpt s o).expenses = s.expenses := by cases o <;> rfl

@[simp] lemma deleteEntryOpt_nextAccountId (s : LedgerState) (o : Option EntryId) :
    (deleteEntryOpt s o).nextAccountId = s.nextAccountId := by cases o <;> rfl

@[simp] lemma deleteEntryOpt_nextEntryId (s : LedgerState) (o : Option EntryId) :
    (deleteEntryOpt s o).nextEntryId = s.nextEntryId := by cases o <;> rfl

-- ----------------------------------------------------------------------
-- Invariant preservation
-- ----------------------------------------------------------------------

lemma inv_setTxn {s : LedgerState} (hs : Inv s) {t : BankTransaction}
    (hGL : t.bankAccountGL ∈ s.accounts) : Inv (setTxn s t) := by
  refine ⟨hs.nodup, hs.bound, hs.entriesOK, ?_, hs.paymentsValid, hs.expensesAcct⟩
  intro u hu
  simp only [setTxn, List.mem_map] at hu
  obtain ⟨v, hv, rfl⟩ := hu
  by_cases hvid : v.id = t.id
  · simpa [hvid] using hGL
  · simpa [hvid] using hs.txnsGL v hv

lemma inv_deleteEntry {s : LedgerState} (hs : Inv s) (jid : EntryId) :
    Inv (deleteEntry s jid) := by
  refine ⟨hs.nodup, hs.bound, ?_, hs.txnsGL, hs.paymentsValid, hs.expensesAcct⟩
  exact entriesOK_filter hs.entriesOK _

lemma inv_deleteEntryOpt {s : LedgerState} (hs : Inv s) (o : Option EntryId) :
    Inv (deleteEntryOpt s o) := by
  cases o with
  | none => exact hs
  | some jid => exact inv_deleteEntry hs jid

lemma inv_post_to_accounting {s : LedgerState} {p : Payment}
    {cash ar clearing : AccountId} (hs : Inv s) (hp : PaymentValid p)
    (hc : cash ∈ s.accounts) (ha : ar ∈ s.accounts) (hcl : clearing ∈ s.accounts) :
    Inv (post_to_accounting s p cash ar clearing).1 := by
  unfold post_to_accounting
  cases hhead : (entriesForSource s .payment p.id).head? with
  | some existing => exact hs
  | none =>
    refine ⟨hs.nodup, hs.bound, ?_, hs.txnsGL, hs.paymentsValid, hs.expensesAcct⟩
    exact entriesOK_append hs.entriesOK
      (entryOK_payment hc ha hcl _ _ _ hp.1 hp.2)

@[simp] lemma post_to_accounting_accounts (s : LedgerState) (p : Payment)
    (cash ar clearing : AccountId) :
    (post_to_accounting s p cash ar clearing).1.accounts = s.accounts := by
  unfold post_to_accounting
  cases hhead : (entriesForSource s .payment p.id).head? <;> simp

@[simp] lemma post_to_accounting_txns (s : LedgerState) (p : Payment)
    (cash ar clearing : AccountId) :
    (post_to_accounting s p cash ar clearing).1.txns = s.txns := by
  unfold post_to_accounting
  cases hhead : (entriesForSource s .payment p.id).head? <;> simp

lemma forall_mem_append_one {α : Type _} {P : α → Prop} {xs : List α} {x : α}
    (h : ∀ y ∈ xs, P y) (hx : P x) : ∀ y ∈ xs ++ [x], P y := by
  intro y hy
  rcases List.mem_append.mp hy with hy | hy
  · exact h y hy
  · rcases List.mem_singleton.mp hy with rfl
    exact hx

lemma inv_setPayment {s : LedgerState} (hs : Inv s) {p' : Payment}
    (hv : PaymentValid p') : Inv (setPayment s p') := by
  refine ⟨hs.nodup, hs.bound, hs.entriesOK, hs.txnsGL, ?_, hs.expensesAcct⟩
  intro q hq
  simp only [setPayment, List.mem_map] at hq
  obtain ⟨v, hv', rfl⟩ := hq
  by_cases hvid : v.id = p'.id
  · simpa [hvid] using hv
  · simpa [hvid] using hs.paymentsValid v hv'

lemma inv_setExpense {s : LedgerState} (hs : Inv s) {ex' : Expense}
    (hacct : ∀ a, ex'.categoryAccount = some a → a ∈ s.accounts) :
    Inv (setExpense s ex') := by
  refine ⟨hs.nodup, hs.bound, hs.entriesOK, hs.txnsGL, hs.paymentsValid, ?_⟩
  intro f hf
  simp only [setExpense, List.mem_map] at hf
  obtain ⟨v, hv, rfl⟩ := hf
  by_cases hvid : v.id = ex'.id
  · simpa [hvid] using hacct
  · simpa [hvid] using hs.expensesAcct v hv

lemma inv_append_entry {s : LedgerState} (hs : Inv s) {je : JournalEntry}
    (n : EntryId) (hok : EntryOK s.accounts je) :
    Inv { s with entries := s.entries ++ [je], nextEntryId := n } :=
  ⟨hs.nodup, hs.bound, entriesOK_append hs.entriesOK hok, hs.txnsGL,
   hs.paymentsValid, hs.expensesAcct⟩

/-- Every engine operation preserves the global invariant. -/
lemma step_inv {s s' : LedgerState} (hs : Inv s) (h : Step s s') : Inv s' := by
  cases h with
  | postInvoice invoiceId total ar revenue now har hrev =>
    by_cases hp : invoice_currently_posted s invoiceId = true
    · simpa [post_invoice, hp] using hs
    · simp only [post_invoice, hp, Bool.false_eq_true, if_false]
      exact ⟨hs.nodup, hs.bound,
        entriesOK_append hs.entriesOK (entryOK_two har hrev _ _ _ total),
        hs.txnsGL, hs.paymentsValid, hs.expensesAcct⟩
  | reverseInvoice invoiceId total ar revenue now har hrev =>
    by_cases hp : invoice_currently_posted s invoiceId = true
    · simp only [reverse_invoice, hp, Bool.not_true, Bool.false_eq_true, if_false]
      exact ⟨hs.nodup, hs.bound,
        entriesOK_append hs.entriesOK (entryOK_two hrev har _ _ _ total),
        hs.txnsGL, hs.paymentsValid, hs.expensesAcct⟩
    · simp only [Bool.not_eq_true] at hp
      simpa [reverse_invoice, hp] using hs
  | createPayment p hp =>
    exact ⟨hs.nodup, hs.bound, hs.entriesOK, hs.txnsGL,
      forall_mem_append_one hs.paymentsValid hp, hs.expensesAcct⟩
  | createExpense ex hacct =>
    exact ⟨hs.nodup, hs.bound, hs.entriesOK, hs.txnsGL, hs.paymentsValid,
      forall_mem_append_one hs.expensesAcct hacct⟩
  | paymentPost pid p cash ar clearing hp hcash har hclear =>
    exact inv_post_to_accounting hs (hs.paymentsValid p (getPayment_mem hp))
      hcash har hclear
  | createBankAccount isCreditCard ob equity now heq =>
    have hna : s.nextAccountId ∉ s.accounts := fun hmem =>
      absurd (hs.bound _ hmem) (lt_irrefl _)
    have hnd : (s.accounts ++ [s.nextAccountId]).Nodup := by
      simp [List.nodup_append, hna, hs.nodup]
    have hbound : ∀ a ∈ s.accounts ++ [s.nextAccountId], a < s.nextAccountId + 1 := by
      intro a ha
      rcases List.mem_append.mp ha with ha | ha
      · exact Nat.lt_succ_of_lt (hs.bound a ha)
      · rcases List.mem_singleton.mp ha with rfl
        exact Nat.lt_succ_self _
    have hsub : ∀ a ∈ s.accounts, a ∈ s.accounts ++ [s.nextAccountId] :=
      fun a ha => List.mem_append_left _ ha
    have hok : ∀ e ∈ s.entries, EntryOK (s.accounts ++ [s.nextAccountId]) e :=
      fun e he => entryOK_mono hsub (hs.entriesOK e he)
    have htx : ∀ t ∈ s.txns, t.bankAccountGL ∈ s.accounts ++ [s.nextAccountId] :=
      fun t ht => hsub _ (hs.txnsGL t ht)
    have hexp : ∀ ex ∈ s.expenses, ∀ a, ex.categoryAccount = some a →
        a ∈ s.accounts ++ [s.nextAccountId] :=
      fun ex he a ha => hsub _ (hs.expensesAcct ex he a ha)
    simp only [create_bank_account]
    split_ifs with hob
    · refine ⟨hnd, hbound, ?_, htx, hs.paymentsValid, hexp⟩
      refine entriesOK_append hok ?_
      exact entryOK_opening (List.mem_append_right _ (List.mem_singleton_self _))
        (hsub _ heq) _ _ _ _ ob
    · exact ⟨hnd, hbound, hok, htx, hs.paymentsValid, hexp⟩
  | postTransaction baId baGL date amount offset hgl hoff =>
    simp only [post_transaction]
    refine ⟨hs.nodup, hs.bound, ?_, ?_, hs.paymentsValid, hs.expensesAcct⟩
    · exact entriesOK_append hs.entriesOK (entryOK_post_transaction hgl hoff _ _ _ _)
    · exact forall_mem_append_one hs.txnsGL hgl
  | retag txn jid newOffset tid ht hje hoff =>
    have hGL : txn.bankAccountGL ∈ s.accounts := hs.txnsGL txn (getTxn_mem ht)
    simp only [retag_transaction_core]
    refine inv_setTxn ?_ ?_
    · refine ⟨hs.nodup, hs.bound, ?_, hs.txnsGL, hs.paymentsValid, hs.expensesAcct⟩
      intro e he
      simp only [List.mem_map] at he
      obtain ⟨x, hx, rfl⟩ := he
      by_cases hxid : x.id = jid
      · simpa [hxid] using entryOK_retag hGL hoff x.id x.postedAt x.source txn.amount
      · simpa [hxid] using hs.entriesOK x hx
    · simpa using hGL
  | linkExpense txn ex expenseAccount tid eid ht hex hnoexp hnopay hcat =>
    have hGL : txn.bankAccountGL ∈ s.accounts := hs.txnsGL txn (getTxn_mem ht)
    have hEA : expenseAccount ∈ s.accounts :=
      hs.expensesAcct ex (getExpense_mem hex) expenseAccount hcat
    simp only [link_expense_core]
    refine inv_setTxn ?_ ?_
    · refine inv_append_entry (inv_setExpense (inv_deleteEntryOpt hs _) ?_) _ ?_
      · intro a ha
        simpa using hs.expensesAcct ex (getExpense_mem hex) a ha
      · refine entryOK_two ?_ ?_ _ _ _ _ <;> simp [hEA, hGL]
    · simpa using hGL
  | matchTransfer txnFrom txnTo fromId toId hf ht hmf hmt hdiff hamt =>
    have hGLf : txnFrom.bankAccountGL ∈ s.accounts := hs.txnsGL txnFrom (getTxn_mem hf)
    have hGLt : txnTo.bankAccountGL ∈ s.accounts := hs.txnsGL txnTo (getTxn_mem ht)
    simp only [match_transfer_core]
    refine inv_setTxn (inv_setTxn ?_ ?_) ?_
    · refine inv_append_entry (inv_deleteEntryOpt (inv_deleteEntryOpt hs _) _) _ ?_
      refine entryOK_two ?_ ?_ _ _ _ _ <;>
        by_cases hneg : txnFrom.amount < 0 <;> simp [hneg, hGLf, hGLt]
    · simpa using hGLf
    · simpa using hGLt
  | linkPayment txn p tid pid cash ar clearing ht hp hnopay hamt hcash har hclear =>
    have hGL : txn.bankAccountGL ∈ s.accounts := hs.txnsGL txn (getTxn_mem ht)
    have hpv : PaymentValid p := hs.paymentsValid p (getPayment_mem hp)
    have hpv1 : PaymentValid (if p.date ≠ txn.date then { p with date := txn.date } else p) := by
      split <;> exact hpv
    simp only [link_existing_payment_core]
    refine inv_setTxn (inv_post_to_accounting (inv_setPayment hs hpv1) hpv1 ?_ ?_ ?_) ?_
    · simpa using hcash
    · simpa using har
    · simpa using hclear
    · simpa using hGL

/-- Seed states satisfy the invariant. -/
lemma seed_inv (accounts : List AccountId) (nextAcct : Nat)
    (hnd : accounts.Nodup) (hlt : ∀ a ∈ accounts, a < nextAcct) :
    Inv { accounts := accounts, entries := [], txns := [], payments := [],
          expenses := [], nextAccountId := nextAcct, nextEntryId := 0, nextTxnId := 0 } := by
  refine ⟨hnd, hlt, ?_, ?_, ?_, ?_⟩ <;> simp

/-- Every reachable ledger state satisfies the invariant. -/
lemma reachable_inv {s : LedgerState} (hs : Reachable s) : Inv s := by
  induction hs with
  | seed accounts nextAcct hnd hlt => exact seed_inv accounts nextAcct hnd hlt
  | step s s' hsr h ih => exact step_inv ih h

-- ----------------------------------------------------------------------
-- Trial balance: regrouping the per-account sums
-- ----------------------------------------------------------------------

lemma sum_map_add_int {α : Type _} (xs : List α) (f g : α → Int) :
    (xs.map (fun x => f x + g x)).sum = (xs.map f).sum + (xs.map g).sum := by
  induction xs with
  | nil => simp
  | cons x xs ih => simp only [List.map_cons, List.sum_cons, ih]; ring

lemma sum_comm_int {α β : Type _} (xs : List α) (ys : List β) (f : α → β → Int) :
    (xs.map (fun x => (ys.map (f x)).sum)).sum
      = (ys.map (fun y => (xs.map (fun x => f x y)).sum)).sum := by
  induction xs with
  | nil =>
    simp only [List.map_nil, List.sum_nil]
    rw [eq_comm]
    exact List.sum_eq_zero (by simp)
  | cons x xs ih =>
    have hys : ys.map (fun y => ((x :: xs).map (fun x' => f x' y)).sum)
        = ys.map (fun y => f x y + (xs.map (fun x' => f x' y)).sum) := by
      simp
    rw [List.map_cons, List.sum_cons, ih, hys, sum_map_add_int]

lemma sum_indicator_int (x : Nat) (v : Int) :
    ∀ accs : List Nat, accs.Nodup → x ∈ accs →
      (accs.map (fun a => if x = a then v else 0)).sum = v := by
  intro accs
  induction accs with
  | nil => intro _ h; cases h
  | cons a as ih =>
    intro hnd hx
    have hna : a ∉ as := (List.nodup_cons.mp hnd).1
    rcases List.mem_cons.mp hx with rfl | hx'
    · have hzero : (as.map (fun a' => if x = a' then v else 0)).sum = 0 := by
        apply List.sum_eq_zero
        intro y hy
        simp only [List.mem_map] at hy
        obtain ⟨a', ha', rfl⟩ := hy
        have hne : x ≠ a' := fun h => hna (h ▸ ha')
        simp [hne]
      simp [hzero]
    · have hne : x ≠ a := fun h => hna (h ▸ hx')
      simp only [List.map_cons, List.sum_cons, if_neg hne, zero_add]
      exact ih (List.nodup_cons.mp hnd).2 hx'

/-- Summing a per-line quantity account by account over a duplicate-free
chart that contains every line's account recovers the plain sum over the
lines. -/
lemma sum_partition (accs : List Nat) (hnd : accs.Nodup) (g : JournalLine → Int) :
    ∀ ls : List JournalLine, (∀ l ∈ ls, l.account ∈ accs) →
      (accs.map (fun a => ((ls.filter (fun l => l.account == a)).map g).sum)).sum
        = (ls.map g).sum := by
  intro ls
  induction ls with
  | nil =>
    intro _
    simp only [List.filter_nil, List.map_nil, List.sum_nil]
    exact List.sum_eq_zero (by simp)
  | cons l ls ih =>
    intro hmem
    have hl : l.account ∈ accs := hmem l (List.mem_cons_self _ _)
    have hls : ∀ l' ∈ ls, l'.account ∈ accs :=
      fun l' h => hmem l' (List.mem_cons_of_mem _ h)
    have key : ∀ a : Nat, (((l :: ls).filter (fun l' => l'.account == a)).map g).sum
        = (if l.account = a then g l else 0)
          + ((ls.filter (fun l' => l'.account == a)).map g).sum := by
      intro a
      by_cases h : l.account = a
      · simp [List.filter_cons, h]
      · simp [List.filter_cons, h]
    simp only [key]
    rw [sum_map_add_int, ih hls, sum_indicator_int l.account (g l) accs hnd hl,
      List.map_cons, List.sum_cons]

lemma line_case_debit_eq (fromD toD : Option Int) (e : JournalEntry) (l : JournalLine) :
    line_case_debit fromD toD e l
      = if inDateRange fromD toD e = true then lineDebitPos l else 0 := by
  unfold line_case_debit lineDebitPos
  by_cases h1 : inDateRange fromD toD e = true <;> simp [h1]

lemma line_case_credit_eq (fromD toD : Option Int) (e : JournalEntry) (l : JournalLine) :
    line_case_credit fromD toD e l
      = if inDateRange fromD toD e = true then lineCreditPos l else 0 := by
  unfold line_case_credit lineCreditPos
  by_cases h1 : inDateRange fromD toD e = true <;> simp [h1]

lemma total_debits_eq (s : LedgerState) (fromD toD : Option Int)
    (hnd : s.accounts.Nodup)
    (hacct : ∀ e ∈ s.entries, ∀ l ∈ e.lines, l.account ∈ s.accounts) :
    total_debits s fromD toD
      = (s.entries.map (fun e =>
          if inDateRange fromD toD e = true then entryDebitPos e else 0)).sum := by
  unfold total_debits debit_sum
  rw [sum_comm_int]
  apply congrArg List.sum
  apply List.map_congr_left
  intro e he
  rw [sum_partition s.accounts hnd _ e.lines (hacct e he)]
  by_cases hr : inDateRange fromD toD e = true
  · simp only [hr, if_true, entryDebitPos]
    apply congrArg List.sum
    apply List.map_congr_left
    intro l _
    rw [line_case_debit_eq]
    simp [hr]
  · simp only [hr, if_false]
    apply List.sum_eq_zero
    intro y hy
    simp only [List.mem_map] at hy
    obtain ⟨l, _, rfl⟩ := hy
    rw [line_case_debit_eq]
    simp [hr]

lemma total_credits_eq (s : LedgerState) (fromD toD : Option Int)
    (hnd : s.accounts.Nodup)
    (hacct : ∀ e ∈ s.entries, ∀ l ∈ e.lines, l.account ∈ s.accounts) :
    total_credits s fromD toD
      = (s.entries.map (fun e =>
          if inDateRange fromD toD e = true then entryCreditPos e else 0)).sum := by
  unfold total_credits credit_sum
  rw [sum_comm_int]
  apply congrArg List.sum
  apply List.map_congr_left
  intro e he
  rw [sum_partition s.accounts hnd _ e.lines (hacct e he)]
  by_cases hr : inDateRange fromD toD e = true
  · simp only [hr, if_true, entryCreditPos]
    apply congrArg List.sum
    apply List.map_congr_left
    intro l _
    rw [line_case_credit_eq]
    simp [hr]
  · simp only [hr, if_false]
    apply List.sum_eq_zero
    intro y hy
    simp only [List.mem_map] at hy
    obtain ⟨l, _, rfl⟩ := hy
    rw [line_case_credit_eq]
    simp [hr]

/-- In any state satisfying the invariant the trial balance grand totals
agree for every date range. -/
lemma trial_balance_of_inv {s : LedgerState} (hinv : Inv s)
    (fromD toD : Option Int) :
    total_debits s fromD toD = total_credits s fromD toD := by
  rw [total_debits_eq s fromD toD hinv.nodup
        (fun e he => (hinv.entriesOK e he).2.2),
      total_credits_eq s fromD toD hinv.nodup
        (fun e he => (hinv.entriesOK e he).2.2)]
  apply congrArg List.sum
  apply List.map_congr_left
  intro e he
  have hpos : entryDebitPos e = entryCreditPos e := (hinv.entriesOK e he).2.1
  rw [hpos]

-- ----------------------------------------------------------------------
-- Claims
-- ----------------------------------------------------------------------

/-- A seed ledger carrying the chart accounts referenced by the services:
Cash 1000, AR (invoices) 1100, AR (payments) 1200, Unapplied Payments 2200,
Owner Equity 3000, Revenue 4000. -/
def seedState : LedgerState :=
  { accounts := [1000, 1100, 1200, 2200, 3000, 4000], entries := [], txns := [],
    payments := [], expenses := [], nextAccountId := 5000, nextEntryId := 0,
    nextTxnId := 0 }

/-- C1: for every JournalEntry committed by any engine operation
(postInvoice, reverseInvoice, Payment.postToAccounting, createBankAccount's
opening-balance entry, postTransaction, retagTransaction, linkExpense,
matchTransfer), the sum of the debit fields over its lines equals the sum
of the credit fields over its lines: every entry of every reachable ledger
state is balanced. -/
theorem claim_C1_balance_invariant {s : LedgerState} (hs : Reachable s) :
    ∀ e ∈ s.entries, EntryBalanced e :=
  fun e he => ((reachable_inv hs).entriesOK e he).1

/-- C1 witness: the invariant instantiated at the concrete entry committed
by posting a -150.00 bank transaction on the seed chart. -/
theorem claim_C1_balance_invariant_witness :
    EntryBalanced
      { id := 0, postedAt := 0, source := some (.bankTransaction, 0),
        lines := post_transaction_lines 1000 4000 (-15000) } :=
  claim_C1_balance_invariant
    (Reachable.step _ _
      (Reachable.seed [1000, 1100, 1200, 2200, 3000, 4000] 5000
        (by decide) (by decide))
      (Step.postTransaction seedState 0 1000 0 (-15000) 4000
        (by decide) (by decide)))
    _ (by decide)

/-- C7: for every choice of optional from/to dates, the trial balance over
journal lines whose entry's posted date falls in the range has equal grand
totals (sum of debit sums = sum of credit sums over all accounts) in every
ledger state reachable through the engine's operations. -/
theorem claim_C7_trial_balance_identity {s : LedgerState} (hs : Reachable s)
    (fromD toD : Option Int) :
    total_debits s fromD toD = total_credits s fromD toD :=
  trial_balance_of_inv (reachable_inv hs) fromD toD

/-- C7 witness: the identity at a concrete reachable ledger and a concrete
date range. -/
theorem claim_C7_trial_balance_identity_witness :
    total_debits (post_transaction seedState 0 1000 3 25000 4000).1
        (some 0) (some 10)
      = total_credits (post_transaction seedState 0 1000 3 25000 4000).1
        (some 0) (some 10) :=
  claim_C7_trial_balance_identity
    (Reachable.step _ _
      (Reachable.seed [1000, 1100, 1200, 2200, 3000, 4000] 5000
        (by decide) (by decide))
      (Step.postTransaction seedState 0 1000 3 25000 4000
        (by decide) (by decide)))
    (some 0) (some 10)

lemma entriesForSource_append (s : LedgerState) (e : JournalEntry) (n : EntryId)
    (st : SourceType) (oid : Nat) (h : e.source = some (st, oid)) :
    entriesForSource { s with entries := s.entries ++ [e], nextEntryId := n } st oid
      = entriesForSource s st oid ++ [e] := by
  unfold entriesForSource
  simp [List.filter_append, h]

/-- After a successful `post_invoice` the invoice counts as posted. -/
lemma posted_post_invoice (s : LedgerState) (i : Nat) (t : Int)
    (a r : AccountId) (n : Int) (h : invoice_currently_posted s i = false) :
    invoice_currently_posted (post_invoice s i t a r n).1 i = true := by
  have hfs : entriesForSource (post_invoice s i t a r n).1 .invoice i
      = entriesForSource s .invoice i ++
        [{ id := s.nextEntryId, postedAt := n, source := some (.invoice, i),
           lines := [ { account := a, debit := t, credit := 0 },
                      { account := r, debit := 0, credit := t } ] }] := by
    simp only [post_invoice, h, Bool.false_eq_true, if_false]
    exact entriesForSource_append _ _ _ _ _ rfl
  unfold invoice_currently_posted at h ⊢
  rw [hfs]
  simp only [List.length_append, List.length_singleton, beq_iff_eq,
    beq_eq_false_iff_ne, ne_eq] at h ⊢
  omega

/-- After a successful `reverse_invoice` the invoice counts as unposted. -/
lemma unposted_reverse_invoice (s : LedgerState) (i : Nat) (t : Int)
    (a r : AccountId) (n : Int) (h : invoice_currently_posted s i = true) :
    invoice_currently_posted (reverse_invoice s i t a r n).1 i = false := by
  have hfs : entriesForSource (reverse_invoice s i t a r n).1 .invoice i
      = entriesForSource s .invoice i ++
        [{ id := s.nextEntryId, postedAt := n, source := some (.invoice, i),
           lines := [ { account := r, debit := t, credit := 0 },
                      { account := a, debit := 0, credit := t } ] }] := by
    simp only [reverse_invoice, h, Bool.not_true, Bool.false_eq_true, if_false]
    exact entriesForSource_append _ _ _ _ _ rfl
  unfold invoice_currently_posted at h ⊢
  rw [hfs]
  simp only [List.length_append, List.length_singleton, beq_iff_eq,
    beq_eq_false_iff_ne, ne_eq] at h ⊢
  omega

/-- C4: calling postInvoice twice in succession on an invoice that is not
currently posted creates exactly one JournalEntry in total — the first call
appends exactly one entry, the second call changes nothing and returns
null — and reverseInvoice on an invoice that is not currently posted (even
entry count for the invoice source) creates nothing and returns null. -/
theorem claim_C4_idempotent_posting (s : LedgerState) (invoiceId : Nat)
    (total : Int) (ar revenue : AccountId) (now1 now2 now3 : Int)
    (h : invoice_currently_posted s invoiceId = false) :
    (∃ e, (post_invoice s invoiceId total ar revenue now1).2 = some e ∧
      (post_invoice s invoiceId total ar revenue now1).1.entries
        = s.entries ++ [e]) ∧
    post_invoice (post_invoice s invoiceId total ar revenue now1).1
        invoiceId total ar revenue now2
      = ((post_invoice s invoiceId total ar revenue now1).1, none) ∧
    reverse_invoice s invoiceId total ar revenue now3 = (s, none) := by
  refine ⟨⟨{ id := s.nextEntryId, postedAt := now1,
             source := some (.invoice, invoiceId),
             lines := [ { account := ar, debit := total, credit := 0 },
                        { account := revenue, debit := 0, credit := total } ] },
           ?_, ?_⟩, ?_, ?_⟩
  · simp [post_invoice, h]
  · simp [post_invoice, h]
  · have hp := posted_post_invoice s invoiceId total ar revenue now1 h
    simp only [post_invoice, h, Bool.false_eq_true, if_false] at hp ⊢
    simp [hp]
  · simp [reverse_invoice, h]

/-- C4 witness: an unposted invoice in the seed ledger. -/
theorem claim_C4_idempotent_posting_witness :
    invoice_currently_posted seedState 7 = false ∧
    ((∃ e, (post_invoice seedState 7 10000 1100 4000 1).2 = some e ∧
      (post_invoice seedState 7 10000 1100 4000 1).1.entries
        = seedState.entries ++ [e]) ∧
    post_invoice (post_invoice seedState 7 10000 1100 4000 1).1
        7 10000 1100 4000 2
      = ((post_invoice seedState 7 10000 1100 4000 1).1, none) ∧
    reverse_invoice seedState 7 10000 1100 4000 3 = (seedState, none)) :=
  ⟨by decide,
   claim_C4_idempotent_posting seedState 7 10000 1100 4000 1 2 3 (by decide)⟩

/-- Net ledger effect (debits minus credits) of a list of journal entries
on one account; the claim about the AR balance is phrased through it. -/
def accountEffect (es : List JournalEntry) (a : AccountId) : Int :=
  (es.map (fun e =>
    ((e.lines.filter (fun l => l.account == a)).map (fun l => l.debit - l.credit)).sum)).sum

/-- C5: posting, reversing, then posting an invoice of total T (starting
from a state where it is not currently posted) appends exactly 3 entries
with that invoice as source, and their combined effect on the AR account
equals the effect of the first posting alone, namely +T. -/
theorem claim_C5_post_reverse_post (s : LedgerState) (invoiceId : Nat)
    (total : Int) (ar revenue : AccountId) (n1 n2 n3 : Int)
    (h : invoice_currently_posted s invoiceId = false) (hne : ar ≠ revenue) :
    ∃ e1 e2 e3 : JournalEntry,
      (post_invoice
        (reverse_invoice
          (post_invoice s invoiceId total ar revenue n1).1
          invoiceId total ar revenue n2).1
        invoiceId total ar revenue n3).1.entries
        = s.entries ++ [e1, e2, e3] ∧
      (∀ e ∈ [e1, e2, e3], e.source = some (.invoice, invoiceId)) ∧
      (entriesForSource
        (post_invoice
          (reverse_invoice
            (post_invoice s invoiceId total ar revenue n1).1
            invoiceId total ar revenue n2).1
          invoiceId total ar revenue n3).1 .invoice invoiceId).length
        = (entriesForSource s .invoice invoiceId).length + 3 ∧
      accountEffect [e1, e2, e3] ar = accountEffect [e1] ar ∧
      accountEffect [e1] ar = total := by
  have hp1 := posted_post_invoice s invoiceId total ar revenue n1 h
  have hp2 := unposted_reverse_invoice
    (post_invoice s invoiceId total ar revenue n1).1 invoiceId total ar revenue n2 hp1
  have hra : (revenue == ar) = false := by
    simp only [beq_eq_false_iff_ne, ne_eq]
    exact fun hc => hne hc.symm
  simp only [post_invoice, h, Bool.false_eq_true, if_false] at hp1
  simp only [post_invoice, h, Bool.false_eq_true, if_false, reverse_invoice,
    hp1, Bool.not_true, if_false] at hp2
  simp only [List.append_assoc, List.singleton_append, List.cons_append,
    List.nil_append] at hp1 hp2
  refine ⟨{ id := s.nextEntryId, postedAt := n1,
            source := some (.invoice, invoiceId),
            lines := [ { account := ar, debit := total, credit := 0 },
                       { account := revenue, debit := 0, credit := total } ] },
          { id := s.nextEntryId + 1, postedAt := n2,
            source := some (.invoice, invoiceId),
            lines := [ { account := revenue, debit := total, credit := 0 },
                       { account := ar, debit := 0, credit := total } ] },
          { id := s.nextEntryId + 1 + 1, postedAt := n3,
            source := some (.invoice, invoiceId),
            lines := [ { account := ar, debit := total, credit := 0 },
                       { account := revenue, debit := 0, credit := total } ] },
          ?_, ?_, ?_, ?_, ?_⟩
  · simp [post_invoice, reverse_invoice, h, hp1, hp2]
  · simp
  · simp [post_invoice, reverse_invoice, h, hp1, hp2, entriesForSource,
      List.filter_append]
  · simp [accountEffect, List.filter_cons, hra]
  · simp [accountEffect, List.filter_cons, hra]

/-- C5 witness: post/reverse/post an invoice of total 123.45 in the seed
ledger. -/
theorem claim_C5_post_reverse_post_witness :
    invoice_currently_posted seedState 9 = false ∧ (1100 : AccountId) ≠ 4000 ∧
    ∃ e1 e2 e3 : JournalEntry,
      (post_invoice
        (reverse_invoice
          (post_invoice seedState 9 12345 1100 4000 1).1
          9 12345 1100 4000 2).1
        9 12345 1100 4000 3).1.entries
        = seedState.entries ++ [e1, e2, e3] ∧
      (∀ e ∈ [e1, e2, e3], e.source = some (.invoice, 9)) ∧
      (entriesForSource
        (post_invoice
          (reverse_invoice
            (post_invoice seedState 9 12345 1100 4000 1).1
            9 12345 1100 4000 2).1
          9 12345 1100 4000 3).1 .invoice 9).length
        = (entriesForSource seedState .invoice 9).length + 3 ∧
      accountEffect [e1, e2, e3] 1100 = accountEffect [e1] 1100 ∧
      accountEffect [e1] 1100 = 12345 :=
  ⟨by decide, by decide,
   claim_C5_post_reverse_post seedState 9 12345 1100 4000 1 2 3
     (by decide) (by decide)⟩

lemma find?_append_left {α : Type _} (p : α → Bool) :
    ∀ (l1 l2 : List α) (u : α), l1.find? p = some u → (l1 ++ l2).find? p = some u := by
  intro l1
  induction l1 with
  | nil => intro l2 u h; simp at h
  | cons v l1 ih =>
    intro l2 u h
    by_cases hv : p v = true
    · rw [List.find?_cons_of_pos _ hv] at h
      rw [List.cons_append, List.find?_cons_of_pos _ hv]
      exact h
    · rw [List.find?_cons_of_neg _ (by simpa using hv)] at h
      rw [List.cons_append, List.find?_cons_of_neg _ (by simpa using hv)]
      exact ih l2 u h

/-- Updating a row by primary key (`k` is the updated row's id) moves
`find?`-by-id across the update. -/
lemma find_map_set (k tid : TxnId) (t' : BankTransaction) (hk : t'.id = k) :
    ∀ (ts : List BankTransaction) (u : BankTransaction),
      ts.find? (fun t => t.id == tid) = some u →
      (ts.map (fun v => if v.id = k then t' else v)).find? (fun t => t.id == tid)
        = some (if u.id = k then t' else u) := by
  intro ts
  induction ts with
  | nil => intro u h; simp at h
  | cons v ts ih =>
    intro u h
    have hid : (if v.id = k then t' else v).id = v.id := by
      by_cases hvt : v.id = k <;> simp [hvt, hk]
    by_cases hv : v.id = tid
    · rw [List.find?_cons_of_pos _ (by simpa using hv)] at h
      injection h with h'
      subst h'
      rw [List.map_cons,
        List.find?_cons_of_pos _ (by simp only [hid, beq_iff_eq]; exact hv)]
    · rw [List.find?_cons_of_neg _ (by simpa using hv)] at h
      rw [List.map_cons,
        List.find?_cons_of_neg _ (by simp only [hid, beq_iff_eq]; exact hv),
        ih u h]

lemma getTxn_setTxn {s : LedgerState} {tid : TxnId} {u : BankTransaction}
    (h : getTxn s tid = some u) (t' : BankTransaction) :
    getTxn (setTxn s t') tid = some (if u.id = t'.id then t' else u) :=
  find_map_set t'.id tid t' rfl s.txns u h

lemma getTxn_eq_of_txns {s1 s2 : LedgerState} (h : s1.txns = s2.txns) (tid : TxnId) :
    getTxn s1 tid = getTxn s2 tid := by
  unfold getTxn
  rw [h]

lemma getEntry_eq_of_entries {s1 s2 : LedgerState} (h : s1.entries = s2.entries)
    (jid : EntryId) : getEntry s1 jid = getEntry s2 jid := by
  unfold getEntry
  rw [h]

/-- Rebuilding one entry's lines in place moves `find?`-by-id across the
rebuild. -/
lemma find_map_update (jid : EntryId) (g : JournalEntry → JournalEntry)
    (hg : ∀ e, (g e).id = e.id) :
    ∀ (es : List JournalEntry) (u : JournalEntry),
      es.find? (fun e => e.id == jid) = some u →
      (es.map (fun e => if e.id = jid then g e else e)).find? (fun e => e.id == jid)
        = some (g u) := by
  intro es
  induction es with
  | nil => intro u h; simp at h
  | cons v es ih =>
    intro u h
    by_cases hv : v.id = jid
    · rw [List.find?_cons_of_pos _ (by simpa using hv)] at h
      injection h with h'
      subst h'
      rw [List.map_cons, List.find?_cons_of_pos]
      · simp [hv]
      · simp [hv, hg]
    · rw [List.find?_cons_of_neg _ (by simpa using hv)] at h
      rw [List.map_cons, List.find?_cons_of_neg, ih u h]
      simp [hv]

/-- C2 counterexample: a payment of amount 0 with no applications, posted
fresh (no existing entry for it), produces an entry with exactly one line
(the cash debit of 0) — not 2 or 3 lines as the claim states for every
payment. -/
theorem claim_C2_counterexample :
    ¬ ((post_to_accounting seedState
          { id := 1, date := 0, amount := 0, applications := [] }
          1000 1200 2200).2.lines.length = 2 ∨
       (post_to_accounting seedState
          { id := 1, date := 0, amount := 0, applications := [] }
          1000 1200 2200).2.lines.length = 3) := by decide

/-- C2 (amended): for every payment with positive amount whose applied
total lies between 0 and the amount (the data-model consistency invariant),
posting when no entry for the payment exists builds exactly one entry whose
lines are: a cash debit of the full amount, an AR credit of the applied
total omitted when not positive, and an unapplied-payments credit of the
remainder omitted when not positive; the entry has exactly 2 or 3 lines and
balances. -/
theorem claim_C2_payment_posting (s : LedgerState) (p : Payment)
    (cash ar clearing : AccountId)
    (hnone : entriesForSource s .payment p.id = [])
    (hpos : 0 < p.amount) (h0 : 0 ≤ appliedTotal p)
    (h1 : appliedTotal p ≤ p.amount) :
    ∃ je : JournalEntry,
      post_to_accounting s p cash ar clearing
        = ({ s with
              entries := s.entries ++ [je]
              nextEntryId := s.nextEntryId + 1 }, je) ∧
      je.lines
        = [ ({ account := cash, debit := p.amount, credit := 0 } : JournalLine) ]
          ++ (if 0 < appliedTotal p then
                [ ({ account := ar, debit := 0,
                     credit := appliedTotal p } : JournalLine) ]
              else [])
          ++ (if 0 < p.amount - appliedTotal p then
                [ ({ account := clearing, debit := 0,
                     credit := p.amount - appliedTotal p } : JournalLine) ]
              else []) ∧
      (je.lines.length = 2 ∨ je.lines.length = 3) ∧
      EntryBalanced je := by
  refine ⟨{ id := s.nextEntryId, postedAt := p.date,
            source := some (.payment, p.id),
            lines := payment_post_lines p.amount (appliedTotal p) cash ar clearing },
          ?_, ?_, ?_, ?_⟩
  · simp [post_to_accounting, hnone]
  · simp [payment_post_lines]
  · simp only [payment_post_lines]
    by_cases ha : 0 < appliedTotal p <;>
      by_cases hu : 0 < p.amount - appliedTotal p <;>
        simp [ha, hu] <;> try omega
  · exact (@entryOK_payment [cash, ar, clearing] cash ar clearing
      (by simp) (by simp) (by simp) s.nextEntryId p.date
      (some (.payment, p.id)) p.amount (appliedTotal p) h0 h1).1

/-- A payment of 100.00 with one 40.00 application. -/
def paymentW : Payment := { id := 3, date := 5, amount := 10000, applications := [4000] }

/-- C2 witness: a payment of 100.00 with a single 40.00 application. -/
theorem claim_C2_payment_posting_witness :
    entriesForSource seedState .payment 3 = [] ∧
    (0 : Int) < 10000 ∧ (0 : Int) ≤ appliedTotal paymentW ∧
    appliedTotal paymentW ≤ 10000 ∧
    ∃ je : JournalEntry,
      post_to_accounting seedState paymentW 1000 1200 2200
        = ({ seedState with
              entries := seedState.entries ++ [je]
              nextEntryId := seedState.nextEntryId + 1 }, je) ∧
      je.lines
        = [ ({ account := 1000, debit := 10000, credit := 0 } : JournalLine) ]
          ++ (if 0 < appliedTotal paymentW then
                [ ({ account := 1200, debit := 0,
                     credit := appliedTotal paymentW } : JournalLine) ]
              else [])
          ++ (if 0 < (10000 : Int) - appliedTotal paymentW then
                [ ({ account := 2200, debit := 0,
                     credit := (10000 : Int) - appliedTotal paymentW } : JournalLine) ]
              else []) ∧
      (je.lines.length = 2 ∨ je.lines.length = 3) ∧
      EntryBalanced je :=
  ⟨by decide, by decide, by decide, by decide,
   claim_C2_payment_posting seedState paymentW 1000 1200 2200
     (by decide) (by decide) (by decide) (by decide)⟩

/-- C3: for two unmatched bank transactions on different bank accounts with
amounts -500.00 and +500.00, `match_transfer` succeeds, appends exactly one
shared JournalEntry whose two lines debit the destination account's GL
account 500.00 and credit the source account's GL account 500.00, points
both transactions' journalEntry at that entry, and sets each transferPair
to the other transaction. -/
theorem claim_C3_transfer_matching (s : LedgerState) (fromId toId : TxnId)
    (txnFrom txnTo : BankTransaction)
    (hf : getTxn s fromId = some txnFrom) (ht : getTxn s toId = some txnTo)
    (hmf : is_matched txnFrom = false) (hmt : is_matched txnTo = false)
    (hdiff : txnFrom.bankAccountId ≠ txnTo.bankAccountId)
    (hafrom : txnFrom.amount = -50000) (hato : txnTo.amount = 50000) :
    ∃ (s' : LedgerState) (je : JournalEntry),
      match_transfer s fromId toId = .ok (s', je) ∧
      je.lines
        = [ { account := txnTo.bankAccountGL, debit := 50000, credit := 0 },
            { account := txnFrom.bankAccountGL, debit := 0, credit := 50000 } ] ∧
      s'.entries
        = (deleteEntryOpt (deleteEntryOpt s txnFrom.journalEntry)
            txnTo.journalEntry).entries ++ [je] ∧
      getTxn s' fromId = some { txnFrom with
        journalEntry := some je.id
        transferPair := some txnTo.id
        offsetAccount := some txnTo.bankAccountGL } ∧
      getTxn s' toId = some { txnTo with
        journalEntry := some je.id
        transferPair := some txnFrom.id
        offsetAccount := some txnFrom.bankAccountGL } := by
  have hidf : txnFrom.id = fromId := getTxn_id hf
  have hidt : txnTo.id = toId := getTxn_id ht
  have hne : fromId ≠ toId := by
    intro hc
    rw [hc, ht] at hf
    injection hf with hf'
    exact hdiff (by rw [hf'])
  have hneg : txnFrom.amount < 0 := by rw [hafrom]; norm_num
  have hf0 : s.txns.find? (fun t => t.id == fromId) = some txnFrom := hf
  have ht0 : s.txns.find? (fun t => t.id == toId) = some txnTo := ht
  have hok : match_transfer s fromId toId
      = .ok (match_transfer_core s txnFrom txnTo) := by
    simp [match_transfer, hf, ht, hmf, hmt, hdiff, hafrom, hato]
  refine ⟨(match_transfer_core s txnFrom txnTo).1,
          (match_transfer_core s txnFrom txnTo).2, by rw [hok], ?_, ?_, ?_, ?_⟩
  · simp [match_transfer_core, hneg, hafrom]
  · simp [match_transfer_core, hneg]
  · simp only [match_transfer_core, hneg, if_true]
    simp only [getTxn, setTxn, deleteEntryOpt_txns]
    have h1 := find_map_set txnFrom.id fromId
      ({ txnFrom with
          journalEntry := some (deleteEntryOpt (deleteEntryOpt s txnFrom.journalEntry)
            txnTo.journalEntry).nextEntryId
          transferPair := some txnTo.id
          offsetAccount := some txnTo.bankAccountGL } : BankTransaction)
      rfl s.txns txnFrom hf0
    rw [if_pos rfl] at h1
    have h2 := find_map_set txnTo.id fromId
      ({ txnTo with
          journalEntry := some (deleteEntryOpt (deleteEntryOpt s txnFrom.journalEntry)
            txnTo.journalEntry).nextEntryId
          transferPair := some txnFrom.id
          offsetAccount := some txnFrom.bankAccountGL } : BankTransaction)
      rfl _ _ h1
    rw [if_neg (by simp only [hidf, hidt]; exact hne)] at h2
    exact h2
  · simp only [match_transfer_core, hneg, if_true]
    simp only [getTxn, setTxn, deleteEntryOpt_txns]
    have h1 := find_map_set txnFrom.id toId
      ({ txnFrom with
          journalEntry := some (deleteEntryOpt (deleteEntryOpt s txnFrom.journalEntry)
            txnTo.journalEntry).nextEntryId
          transferPair := some txnTo.id
          offsetAccount := some txnTo.bankAccountGL } : BankTransaction)
      rfl s.txns txnTo ht0
    rw [if_neg (by simp only [hidf, hidt]; exact Ne.symm hne)] at h1
    have h2 := find_map_set txnTo.id toId
      ({ txnTo with
          journalEntry := some (deleteEntryOpt (deleteEntryOpt s txnFrom.journalEntry)
            txnTo.journalEntry).nextEntryId
          transferPair := some txnFrom.id
          offsetAccount := some txnFrom.bankAccountGL } : BankTransaction)
      rfl _ _ h1
    rw [if_pos rfl] at h2
    exact h2

/-- An unmatched -500.00 withdrawal on bank account 1 (GL 1110). -/
def txnFromW : BankTransaction :=
  { id := 0, bankAccountId := 1, bankAccountGL := 1110, date := 10,
    amount := -50000, journalEntry := some 0, offsetAccount := some 4000,
    expense := none, payment := none, transferPair := none }

/-- An unmatched +500.00 deposit on bank account 2 (GL 1111). -/
def txnToW : BankTransaction :=
  { id := 1, bankAccountId := 2, bankAccountGL := 1111, date := 11,
    amount := 50000, journalEntry := some 1, offsetAccount := some 4000,
    expense := none, payment := none, transferPair := none }

/-- The `post_transaction` entry originally attached to `txnFromW`. -/
def jeW : JournalEntry :=
  { id := 0, postedAt := 10, source := some (.bankTransaction, 0),
    lines := [ { account := 4000, debit := 50000, credit := 0 },
               { account := 1110, debit := 0, credit := 50000 } ] }

/-- Ledger holding the two transfer candidates with their original
`post_transaction` entries. -/
def stateC3 : LedgerState :=
  { accounts := [1110, 1111, 4000]
    entries :=
      [ jeW,
        { id := 1, postedAt := 11, source := some (.bankTransaction, 1),
          lines := [ { account := 1111, debit := 50000, credit := 0 },
                     { account := 4000, debit := 0, credit := 50000 } ] } ]
    txns := [txnFromW, txnToW]
    payments := []
    expenses := []
    nextAccountId := 5000
    nextEntryId := 2
    nextTxnId := 2 }

/-- C3 witness: matching the concrete -500.00/+500.00 pair. -/
theorem claim_C3_transfer_matching_witness :
    getTxn stateC3 0 = some txnFromW ∧ getTxn stateC3 1 = some txnToW ∧
    is_matched txnFromW = false ∧ is_matched txnToW = false ∧
    txnFromW.bankAccountId ≠ txnToW.bankAccountId ∧
    txnFromW.amount = -50000 ∧ txnToW.amount = 50000 ∧
    ∃ (s' : LedgerState) (je : JournalEntry),
      match_transfer stateC3 0 1 = .ok (s', je) ∧
      je.lines
        = [ { account := txnToW.bankAccountGL, debit := 50000, credit := 0 },
            { account := txnFromW.bankAccountGL, debit := 0, credit := 50000 } ] ∧
      s'.entries
        = (deleteEntryOpt (deleteEntryOpt stateC3 txnFromW.journalEntry)
            txnToW.journalEntry).entries ++ [je] ∧
      getTxn s' 0 = some { txnFromW with
        journalEntry := some je.id
        transferPair := some txnToW.id
        offsetAccount := some txnToW.bankAccountGL } ∧
      getTxn s' 1 = some { txnToW with
        journalEntry := some je.id
        transferPair := some txnFromW.id
        offsetAccount := some txnFromW.bankAccountGL } :=
  ⟨by decide, by decide, by decide, by decide, by decide, by decide, by decide,
   claim_C3_transfer_matching stateC3 0 1 txnFromW txnToW
     (by decide) (by decide) (by decide) (by decide) (by decide)
     (by decide) (by decide)⟩

/-- C6: retagging a transaction that carries a posted journal entry keeps
the same JournalEntry row (same id, no entry created or deleted, next entry
id unchanged), replaces the entry's lines with the two lines produced by
the same debit/credit-by-sign rule as postTransaction so that the offset
line's account is the new offset account, the rebuilt entry balances, and
the transaction's offsetAccount becomes the new offset account. -/
theorem claim_C6_retag_reposting (s : LedgerState) (tid : TxnId)
    (txn : BankTransaction) (jid : EntryId) (je : JournalEntry)
    (newOffset : AccountId)
    (ht : getTxn s tid = some txn) (hje : txn.journalEntry = some jid)
    (hentry : getEntry s jid = some je) :
    ∃ s' : LedgerState,
      retag_transaction s tid newOffset = some s' ∧
      getTxn s' tid = some { txn with offsetAccount := some newOffset } ∧
      ({ txn with offsetAccount := some newOffset }).journalEntry = some jid ∧
      getEntry s' jid
        = some { je with lines := retag_lines txn.bankAccountGL newOffset txn.amount } ∧
      s'.entries.map (fun e => e.id) = s.entries.map (fun e => e.id) ∧
      s'.nextEntryId = s.nextEntryId ∧
      EntryBalanced { je with lines := retag_lines txn.bankAccountGL newOffset txn.amount } ∧
      (retag_lines txn.bankAccountGL newOffset txn.amount).map (fun l => l.account)
        = (if 0 < txn.amount then [txn.bankAccountGL, newOffset]
           else [newOffset, txn.bankAccountGL]) ∧
      retag_lines txn.bankAccountGL newOffset txn.amount
        = post_transaction_lines txn.bankAccountGL newOffset txn.amount := by
  have hid : txn.id = tid := getTxn_id ht
  have ht0 : s.txns.find? (fun t => t.id == tid) = some txn := ht
  have hj0 : s.entries.find? (fun e => e.id == jid) = some je := hentry
  refine ⟨retag_transaction_core s txn jid newOffset, ?_, ?_, hje, ?_, ?_, rfl,
          ?_, ?_, ?_⟩
  · simp [retag_transaction, ht, hje]
  · simp only [retag_transaction_core, setTxn, getTxn]
    have h1 := find_map_set txn.id tid
      ({ txn with offsetAccount := some newOffset } : BankTransaction)
      rfl _ txn ht0
    rw [if_pos rfl] at h1
    exact h1
  · simp only [retag_transaction_core, setTxn, getTxn, getEntry]
    exact find_map_update jid (fun e =>
      { e with lines := retag_lines txn.bankAccountGL newOffset txn.amount })
      (fun e => rfl) s.entries je hj0
  · simp only [retag_transaction_core, setTxn]
    rw [List.map_map]
    apply List.map_congr_left
    intro e _
    by_cases h : e.id = jid <;> simp [h]
  · exact (@entryOK_retag [txn.bankAccountGL, newOffset] txn.bankAccountGL
      newOffset (by simp) (by simp) je.id je.postedAt je.source txn.amount).1
  · unfold retag_lines
    by_cases h : 0 < txn.amount <;> simp [h]
  · rfl

/-- C6 witness: retag the concrete -500.00 transaction from offset 4000 to
offset 1111. -/
theorem claim_C6_retag_reposting_witness :
    getTxn stateC3 0 = some txnFromW ∧
    txnFromW.journalEntry = some 0 ∧
    getEntry stateC3 0 = some jeW ∧
    ∃ s' : LedgerState,
      retag_transaction stateC3 0 1111 = some s' ∧
      getTxn s' 0 = some { txnFromW with offsetAccount := some 1111 } ∧
      ({ txnFromW with offsetAccount := some 1111 }).journalEntry = some 0 ∧
      getEntry s' 0
        = some { jeW with
            lines := retag_lines txnFromW.bankAccountGL 1111 txnFromW.amount } ∧
      s'.entries.map (fun e => e.id) = stateC3.entries.map (fun e => e.id) ∧
      s'.nextEntryId = stateC3.nextEntryId ∧
      EntryBalanced { jeW with
        lines := retag_lines txnFromW.bankAccountGL 1111 txnFromW.amount } ∧
      (retag_lines txnFromW.bankAccountGL 1111 txnFromW.amount).map
          (fun l => l.account)
        = (if 0 < txnFromW.amount then [txnFromW.bankAccountGL, 1111]
           else [1111, txnFromW.bankAccountGL]) ∧
      retag_lines txnFromW.bankAccountGL 1111 txnFromW.amount
        = post_transaction_lines txnFromW.bankAccountGL 1111 txnFromW.amount :=
  ⟨by decide, by decide, by decide,
   claim_C6_retag_reposting stateC3 0 txnFromW 0 jeW 1111
     (by decide) (by decide) (by decide)⟩

/-- Whether a banking-service call succeeded (no domain error raised). -/
def succeeded (r : Except String LedgerState) : Bool :=
  match r with
  | .ok _ => true
  | .error _ => false

/-- A transaction already matched as a transfer (transferPair set), with no
payment or expense link. -/
def txnC8 : BankTransaction :=
  { id := 0, bankAccountId := 1, bankAccountGL := 1110, date := 0,
    amount := -2500, journalEntry := some 0, offsetAccount := some 4000,
    expense := none, payment := none, transferPair := some 1 }

/-- An expense whose category has GL account 6000 assigned. -/
def expC8 : Expense := { id := 5, categoryAccount := some 6000, paymentAccount := none }

/-- Ledger holding the transfer-matched transaction and the expense. -/
def stateC8 : LedgerState :=
  { accounts := [1110, 4000, 6000]
    entries :=
      [ { id := 0, postedAt := 0, source := some (.bankTransaction, 0),
          lines := [ { account := 4000, debit := 2500, credit := 0 },
                     { account := 1110, debit := 0, credit := 2500 } ] } ]
    txns := [txnC8]
    payments := []
    expenses := [expC8]
    nextAccountId := 7000
    nextEntryId := 1
    nextTxnId := 2 }

/-- C8 counterexample: a BankTransaction matched as a transfer
(`is_matched` true through `transferPair`) is nevertheless accepted by
`link_expense` — no AlreadyMatched error is raised, refuting the claim that
any existing payment, expense, or transfer link makes `link_expense` raise. -/
theorem claim_C8_counterexample :
    getTxn stateC8 0 = some txnC8 ∧
    is_matched txnC8 = true ∧ txnC8.transferPair.isSome = true ∧
    txnC8.payment = none ∧ txnC8.expense = none ∧
    succeeded (link_expense stateC8 0 5) = true := by decide

/-- C8 (amended): whenever a BankTransaction already has a payment link or
an expense link, `link_expense` raises a domain error; since every service
runs in one atomic transaction, the error result carries no state and
nothing is committed.  (A transfer link alone does not make `link_expense`
raise — see the counterexample.) -/
theorem claim_C8_already_matched (s : LedgerState) (tid : TxnId)
    (eid : ExpenseId) (txn : BankTransaction)
    (ht : getTxn s tid = some txn)
    (hmatched : txn.payment.isSome = true ∨ txn.expense.isSome = true) :
    ∃ msg, link_expense s tid eid = .error msg := by
  cases hex : getExpense s eid with
  | none =>
    refine ⟨"Bank transaction or expense not found.", ?_⟩
    simp [link_expense, ht, hex]
  | some ex =>
    rcases hmatched with hpay | hexp
    · by_cases he : txn.expense.isSome = true
      · refine ⟨"Bank transaction is already linked to an expense.", ?_⟩
        simp [link_expense, ht, hex, he]
      · refine ⟨"Bank transaction is already linked to a payment.", ?_⟩
        simp only [Bool.not_eq_true] at he
        simp [link_expense, ht, hex, he, hpay]
    · refine ⟨"Bank transaction is already linked to an expense.", ?_⟩
      simp [link_expense, ht, hex, hexp]

/-- A transaction already linked to a payment. -/
def txnC8b : BankTransaction :=
  { id := 1, bankAccountId := 1, bankAccountGL := 1110, date := 0,
    amount := -2500, journalEntry := some 0, offsetAccount := some 1000,
    expense := none, payment := some 9, transferPair := none }

/-- Ledger for the C8 witness. -/
def stateC8b : LedgerState :=
  { accounts := [1110, 1000, 6000]
    entries := []
    txns := [txnC8b]
    payments := []
    expenses := [expC8]
    nextAccountId := 7000
    nextEntryId := 1
    nextTxnId := 2 }

/-- C8 witness: linking an expense to a payment-matched transaction
errors. -/
theorem claim_C8_already_matched_witness :
    getTxn stateC8b 1 = some txnC8b ∧
    (txnC8b.payment.isSome = true ∨ txnC8b.expense.isSome = true) ∧
    ∃ msg, link_expense stateC8b 1 5 = .error msg :=
  ⟨by decide, Or.inl (by decide),
   claim_C8_already_matched stateC8b 1 5 txnC8b (by decide)
     (Or.inl (by decide))⟩

/-- `Payment.post_to_accounting` either returns an already-existing entry
for the payment (leaving the entries untouched) or appends one fresh entry
carrying the next entry id. -/
lemma post_to_accounting_cases (s : LedgerState) (p : Payment)
    (cash ar clearing : AccountId) :
    ((post_to_accounting s p cash ar clearing).1.entries = s.entries ∧
      (post_to_accounting s p cash ar clearing).2 ∈ s.entries ∧
      (post_to_accounting s p cash ar clearing).2.source = some (.payment, p.id)) ∨
    ((post_to_accounting s p cash ar clearing).1.entries
        = s.entries ++ [(post_to_accounting s p cash ar clearing).2] ∧
      (post_to_accounting s p cash ar clearing).2.id = s.nextEntryId) := by
  unfold post_to_accounting
  cases hhead : (entriesForSource s .payment p.id).head? with
  | some existing =>
    left
    have hmem' : existing ∈ entriesForSource s .payment p.id :=
      List.mem_of_mem_head? (by rw [hhead]; rfl)
    simp only [entriesForSource] at hmem'
    have hsplit := List.mem_filter.mp hmem'
    refine ⟨rfl, hsplit.1, ?_⟩
    simpa using hsplit.2
  | none => exact Or.inr ⟨rfl, rfl⟩

/-- Frame facts about the state after the success path of
`link_existing_payment`, for an arbitrary saved payment `p1`: the old entry
survives untouched, the transaction is re-pointed, and the payment's entry
is a different row than the old entry. -/
lemma link_post_state_spec (s : LedgerState) (txn : BankTransaction)
    (p1 : Payment) (cash ar clearing : AccountId) (tid : TxnId)
    (oldJid : EntryId) (oldJe : JournalEntry)
    (ht0 : s.txns.find? (fun t => t.id == tid) = some txn)
    (hj0 : s.entries.find? (fun e => e.id == oldJid) = some oldJe)
    (holdid : oldJe.id = oldJid)
    (hmemold : oldJe ∈ s.entries)
    (hsrc : oldJe.source = some (.bankTransaction, tid))
    (hfresh : ∀ e ∈ s.entries, e.id < s.nextEntryId)
    (hnodup : (s.entries.map (fun e => e.id)).Nodup)
    (pidv : PaymentId) :
    getEntry (setTxn (post_to_accounting (setPayment s p1) p1 cash ar clearing).1
        { txn with
            payment := some pidv
            journalEntry :=
              some (post_to_accounting (setPayment s p1) p1 cash ar clearing).2.id })
        oldJid = some oldJe ∧
    oldJe ∈ (setTxn (post_to_accounting (setPayment s p1) p1 cash ar clearing).1
        { txn with
            payment := some pidv
            journalEntry :=
              some (post_to_accounting (setPayment s p1) p1 cash ar clearing).2.id
        }).entries ∧
    getTxn (setTxn (post_to_accounting (setPayment s p1) p1 cash ar clearing).1
        { txn with
            payment := some pidv
            journalEntry :=
              some (post_to_accounting (setPayment s p1) p1 cash ar clearing).2.id
        }) tid
      = some { txn with
          payment := some pidv
          journalEntry :=
            some (post_to_accounting (setPayment s p1) p1 cash ar clearing).2.id } ∧
    (post_to_accounting (setPayment s p1) p1 cash ar clearing).2
      ∈ (setTxn (post_to_accounting (setPayment s p1) p1 cash ar clearing).1
        { txn with
            payment := some pidv
            journalEntry :=
              some (post_to_accounting (setPayment s p1) p1 cash ar clearing).2.id
        }).entries ∧
    (post_to_accounting (setPayment s p1) p1 cash ar clearing).2.id ≠ oldJid := by
  have hS2txn : getTxn (post_to_accounting (setPayment s p1) p1 cash ar clearing).1 tid
      = some txn := by
    unfold getTxn
    rw [post_to_accounting_txns, setPayment_txns]
    exact ht0
  have hgot := getTxn_setTxn hS2txn
    ({ txn with
        payment := some pidv
        journalEntry :=
          some (post_to_accounting (setPayment s p1) p1 cash ar clearing).2.id } :
      BankTransaction)
  rw [if_pos rfl] at hgot
  rcases post_to_accounting_cases (setPayment s p1) p1 cash ar clearing with
    ⟨hent, hmemJ, hsrcJ⟩ | ⟨hent, hidJ⟩
  · have hJneq : (post_to_accounting (setPayment s p1) p1 cash ar clearing).2 ≠ oldJe := by
      intro hEq
      rw [hEq, hsrc] at hsrcJ
      simp at hsrcJ
    refine ⟨?_, ?_, hgot, ?_, ?_⟩
    · simp only [getEntry, setTxn_entries]
      rw [hent, setPayment_entries]
      exact hj0
    · simp only [setTxn_entries]
      rw [hent, setPayment_entries]
      exact hmemold
    · simp only [setTxn_entries]
      rw [hent, setPayment_entries]
      simpa [setPayment_entries] using hmemJ
    · intro hcEq
      apply hJneq
      refine List.inj_on_of_nodup_map hnodup ?_ hmemold ?_
      · simpa [setPayment_entries] using hmemJ
      · exact hcEq.trans holdid.symm
  · refine ⟨?_, ?_, hgot, ?_, ?_⟩
    · simp only [getEntry, setTxn_entries]
      rw [hent, setPayment_entries]
      exact find?_append_left _ _ _ _ hj0
    · simp only [setTxn_entries]
      rw [hent, setPayment_entries]
      exact List.mem_append_left _ hmemold
    · simp only [setTxn_entries]
      rw [hent]
      exact List.mem_append_right _ (List.mem_singleton_self _)
    · intro hcEq
      rw [hidJ, setPayment_nextEntryId] at hcEq
      have hlt := hfresh oldJe hmemold
      rw [holdid, ← hcEq] at hlt
      exact lt_irrefl _ hlt

/-- C10: when a bank transaction already carries the journal entry created
for it by postTransaction, a successful linkExistingPayment re-points the
transaction's journalEntry at the payment's entry but neither deletes nor
modifies the pre-existing entry: it stays in the ledger unchanged, so the
transaction's amount is recorded by both that entry and the payment's
entry. -/
theorem claim_C10_link_payment_keeps_old_entry (s : LedgerState) (tid : TxnId)
    (pid : PaymentId) (txn : BankTransaction) (p : Payment)
    (oldJid : EntryId) (oldJe : JournalEntry) (cash ar clearing : AccountId)
    (ht : getTxn s tid = some txn) (hp : getPayment s pid = some p)
    (hnopay : txn.payment = none) (hamt : p.amount = txn.amount)
    (hje : txn.journalEntry = some oldJid)
    (hentry : getEntry s oldJid = some oldJe)
    (hsrc : oldJe.source = some (.bankTransaction, tid))
    (hfresh : ∀ e ∈ s.entries, e.id < s.nextEntryId)
    (hnodup : (s.entries.map (fun e => e.id)).Nodup) :
    ∃ (s' : LedgerState) (paymentJe : JournalEntry),
      link_existing_payment s tid pid cash ar clearing = .ok s' ∧
      getEntry s' oldJid = some oldJe ∧
      oldJe ∈ s'.entries ∧
      getTxn s' tid
        = some { txn with payment := some p.id, journalEntry := some paymentJe.id } ∧
      paymentJe ∈ s'.entries ∧
      paymentJe.id ≠ oldJid := by
  have hid : txn.id = tid := getTxn_id ht
  have holdid : oldJe.id = oldJid := by
    have := List.find?_some hentry
    simpa using this
  have hmemold : oldJe ∈ s.entries := getEntry_mem hentry
  have ht0 : s.txns.find? (fun t => t.id == tid) = some txn := ht
  have hj0 : s.entries.find? (fun e => e.id == oldJid) = some oldJe := hentry
  have hok : link_existing_payment s tid pid cash ar clearing
      = .ok (link_existing_payment_core s txn p cash ar clearing) := by
    simp [link_existing_payment, ht, hp, hnopay, hamt]
  obtain ⟨ha, hb, hc, hd, he⟩ :=
    link_post_state_spec s txn
      (if p.date ≠ txn.date then { p with date := txn.date } else p)
      cash ar clearing tid oldJid oldJe ht0 hj0 holdid hmemold hsrc
      hfresh hnodup p.id
  exact ⟨link_existing_payment_core s txn p cash ar clearing,
    (post_to_accounting
      (setPayment s (if p.date ≠ txn.date then { p with date := txn.date } else p))
      (if p.date ≠ txn.date then { p with date := txn.date } else p)
      cash ar clearing).2,
    hok, ha, hb, hc, hd, he⟩

/-- A +100.00 deposit still carrying its `post_transaction` entry. -/
def txnC10 : BankTransaction :=
  { id := 0, bankAccountId := 1, bankAccountGL := 1110, date := 20,
    amount := 10000, journalEntry := some 0, offsetAccount := some 4000,
    expense := none, payment := none, transferPair := none }

/-- The `post_transaction` entry of `txnC10`. -/
def jeC10 : JournalEntry :=
  { id := 0, postedAt := 20, source := some (.bankTransaction, 0),
    lines := [ { account := 1110, debit := 10000, credit := 0 },
               { account := 4000, debit := 0, credit := 10000 } ] }

/-- A not-yet-posted payment of 100.00. -/
def payC10 : Payment := { id := 2, date := 18, amount := 10000, applications := [] }

/-- Ledger for the C10 witness. -/
def stateC10 : LedgerState :=
  { accounts := [1000, 1110, 1200, 2200, 4000]
    entries := [jeC10]
    txns := [txnC10]
    payments := [payC10]
    expenses := []
    nextAccountId := 5000
    nextEntryId := 1
    nextTxnId := 1 }

/-- C10 witness: linking the concrete payment to the concrete posted
transaction. -/
theorem claim_C10_link_payment_keeps_old_entry_witness :
    getTxn stateC10 0 = some txnC10 ∧
    getPayment stateC10 2 = some payC10 ∧
    txnC10.payment = none ∧ payC10.amount = txnC10.amount ∧
    txnC10.journalEntry = some 0 ∧
    getEntry stateC10 0 = some jeC10 ∧
    jeC10.source = some (.bankTransaction, 0) ∧
    (∀ e ∈ stateC10.entries, e.id < stateC10.nextEntryId) ∧
    (stateC10.entries.map (fun e => e.id)).Nodup ∧
    ∃ (s' : LedgerState) (paymentJe : JournalEntry),
      link_existing_payment stateC10 0 2 1000 1200 2200 = .ok s' ∧
      getEntry s' 0 = some jeC10 ∧
      jeC10 ∈ s'.entries ∧
      getTxn s' 0
        = some { txnC10 with payment := some payC10.id,
                             journalEntry := some paymentJe.id } ∧
      paymentJe ∈ s'.entries ∧
      paymentJe.id ≠ 0 :=
  ⟨by decide, by decide, by decide, by decide, by decide, by decide, by decide,
   by decide, by decide,
   claim_C10_link_payment_keeps_old_entry stateC10 0 2 txnC10 payC10 0 jeC10
     1000 1200 2200 (by decide) (by decide) (by decide) (by decide) (by decide)
     (by decide) (by decide) (by decide) (by decide)⟩

/-- C9: `normalize_amount` is pointwise: identity under BANK_STANDARD,
negation under CC_CHARGES_POSITIVE, identity under CC_CHARGES_NEGATIVE; in
particular raw +45.00 becomes -45.00 under CC_CHARGES_POSITIVE and stays
+45.00 under BANK_STANDARD. -/
theorem claim_C9_normalize_amount :
    (∀ a : Int, normalize_amount a "BANK_STANDARD" = a) ∧
    (∀ a : Int, normalize_amount a "CC_CHARGES_POSITIVE" = -a) ∧
    (∀ a : Int, normalize_amount a "CC_CHARGES_NEGATIVE" = a) ∧
    normalize_amount 4500 "CC_CHARGES_POSITIVE" = -4500 ∧
    normalize_amount 4500 "BANK_STANDARD" = 4500 := by
  refine ⟨fun a => rfl, fun a => ?_, fun a => ?_, rfl, rfl⟩ <;>
    simp [normalize_amount]

end ArduaBooks
